import Mathlib

/-!
A verification development for the collision / constraint-solver core of the
PlayRho (Box2D-fork) physics engine.  The C++ sources are shallowly embedded
over the rational numbers: machine `float_t`/`RealNum` values become `ℚ`,
member functions become pure Lean functions, and in-place mutation becomes
explicit state passing.  The sentinel "invalid" value (NaN) used by the block
solver is modelled with `Option`.

Parts of the engine that the translated files merely call — the GJK `Distance`
query, the `SeparationFunction` geometry (whose construction normalizes
vectors, i.e. takes square roots), the `GetPSM` position-solver-manifold
computation, and the `almost_equal` float comparison — are not present in the
translated sources; per their documented contracts they are passed in as
explicit function parameters, so every theorem below holds for all possible
implementations of those collaborators.
-/

namespace PlayRho

/-! ## Geometry primitives (Vec2 and friends) -/

/-- Two-dimensional vector over ℚ (models `Vec2` with `float_t` coordinates). -/
structure Vec2 where
  x : ℚ
  y : ℚ
deriving DecidableEq

instance : Inhabited Vec2 := ⟨⟨0, 0⟩⟩

instance : Add Vec2 := ⟨fun u v => ⟨u.x + v.x, u.y + v.y⟩⟩

instance : Sub Vec2 := ⟨fun u v => ⟨u.x - v.x, u.y - v.y⟩⟩

instance : Neg Vec2 := ⟨fun v => ⟨-v.x, -v.y⟩⟩

instance : Zero Vec2 := ⟨⟨0, 0⟩⟩

instance : SMul ℚ Vec2 := ⟨fun s v => ⟨s * v.x, s * v.y⟩⟩

/-- Dot product of two vectors (models `Dot`). -/
def dot (u v : Vec2) : ℚ := u.x * v.x + u.y * v.y

/-- Two-dimensional cross product (models `Cross(Vec2, Vec2)`). -/
def cross (u v : Vec2) : ℚ := u.x * v.y - u.y * v.x

/-- Scalar-vector cross product `s × v` (models `Cross(float, Vec2)`,
the angular-velocity contribution `ω × r`). -/
def crossZ (s : ℚ) (v : Vec2) : Vec2 := ⟨-s * v.y, s * v.x⟩

/-- Models `Square(x) = x * x`. -/
def Square (x : ℚ) : ℚ := x * x

/-- Models `GetLengthSquared(v) = Square(v.x) + Square(v.y)`. -/
def GetLengthSquared (v : Vec2) : ℚ := Square v.x + Square v.y

/-- Models `GetFwdPerpendicular(v) = Vec2{v.y, -v.x}`. -/
def GetFwdPerpendicular (v : Vec2) : Vec2 := ⟨v.y, -v.x⟩

/-- Models `Clamp(a, low, high) = Max(low, Min(a, high))`. -/
def Clamp (a low high : ℚ) : ℚ := max low (min a high)

/-- Column-major 2×2 matrix (models `Mat22` with columns `ex`, `ey`). -/
structure Mat22 where
  ex : Vec2
  ey : Vec2
deriving DecidableEq

/-- Models `Transform(v, M) = M.ex * v.x + M.ey * v.y` (matrix-vector product
with column-major storage). -/
def TransformMat (v : Vec2) (m : Mat22) : Vec2 := v.x • m.ex + v.y • m.ey

/-! ## VertexSet (`PlayRho/Common/VertexSet.hpp`) -/

/-- Models `playrho::VertexSet`: a vector of vertices plus the immutable
`m_minSepSquared` threshold. -/
structure VertexSet where
  elements : List Vec2
  minSepSquared : ℚ
deriving DecidableEq

/-- Models `VertexSet::find(value)`: first stored element whose delta with
`value` has squared length at most `m_minSepSquared` (`std::find_if` with the
predicate `GetLengthSquared(value - elem) <= m_minSepSquared`).  A `some`
result corresponds to an iterator different from `end()`. -/
def VertexSet.find (s : VertexSet) (value : Vec2) : Option Vec2 :=
  s.elements.find? (fun elem => decide (GetLengthSquared (value - elem) ≤ s.minSepSquared))

/-- Models `VertexSet::add(value)`: reject (returning `false`, set unchanged)
when `find` locates a nearby stored vertex, else push `value` back and return
`true`. -/
def VertexSet.add (s : VertexSet) (value : Vec2) : VertexSet × Bool :=
  if (s.find value).isSome then (s, false)
  else ({ s with elements := s.elements ++ [value] }, true)

/-- Models `VertexSet::clear()`. -/
def VertexSet.clear (s : VertexSet) : VertexSet := { s with elements := [] }

/-- Models a freshly constructed `VertexSet{minSepSquared}` (empty vector). -/
def VertexSet.empty (minSepSquared : ℚ) : VertexSet := ⟨[], minSepSquared⟩

/-- One client call on a `VertexSet`: either `add` of a vertex or `clear`. -/
inductive VertexSetOp where
  | add (v : Vec2)
  | clear
deriving DecidableEq

/-- Runs a sequence of `add`/`clear` calls against a `VertexSet`. -/
def VertexSet.run (s : VertexSet) : List VertexSetOp → VertexSet
  | [] => s
  | VertexSetOp.add v :: ops => (s.add v).1.run ops
  | VertexSetOp.clear :: ops => s.clear.run ops

/-! ## Velocity state and body constraints -/

/-- Models `Velocity`: linear velocity plus angular velocity (the quantity
units `MeterPerSecond`, `RadianPerSecond` are dimensional tags whose numeric
factor is 1; they are dropped). -/
structure Velocity where
  linear : Vec2
  angular : ℚ
deriving DecidableEq

instance : Add Velocity := ⟨fun a b => ⟨a.linear + b.linear, a.angular + b.angular⟩⟩

instance : Sub Velocity := ⟨fun a b => ⟨a.linear - b.linear, a.angular - b.angular⟩⟩

instance : Neg Velocity := ⟨fun a => ⟨-a.linear, -a.angular⟩⟩

/-- Models `Position`: linear position of the center of mass plus the angle. -/
structure Position where
  linear : Vec2
  angular : ℚ
deriving DecidableEq

instance : Add Position := ⟨fun a b => ⟨a.linear + b.linear, a.angular + b.angular⟩⟩

instance : Neg Position := ⟨fun a => ⟨-a.linear, -a.angular⟩⟩

/-- Models `BodyConstraint`: the per-body state the solvers read and write
(spec §6 body state provider: inverse mass, inverse rotational inertia, local
center, position, velocity). -/
structure BodyConstraint where
  invMass : ℚ
  invRotInertia : ℚ
  localCenter : Vec2
  position : Position
  velocity : Velocity
deriving DecidableEq

/-- Models `GetContactRelVelocity(velA, rA, velB, rB)`: the velocity of the
contact point on body B relative to the contact point on body A,
`(velB.linear + ωB × rB) - (velA.linear + ωA × rA)`. -/
def GetContactRelVelocity (velA : Velocity) (rA : Vec2) (velB : Velocity) (rB : Vec2) : Vec2 :=
  (velB.linear + crossZ velB.angular rB) - (velA.linear + crossZ velA.angular rA)

/-! ## Velocity constraint data (`ContactSolver.cpp` / spec §3, §4.E) -/

/-- Per-contact-point data of a velocity constraint (spec §3
`VelocityConstraint` per-point fields). -/
structure VelocityConstraintPoint where
  rA : Vec2
  rB : Vec2
  normalImpulse : ℚ
  tangentImpulse : ℚ
  normalMass : ℚ
  tangentMass : ℚ
  velocityBias : ℚ
deriving DecidableEq

instance : Inhabited VelocityConstraintPoint := ⟨⟨0, 0, 0, 0, 0, 0, 0⟩⟩

/-- Models `VelocityConstraint`: the two bodies, the contact frame, friction
data, the 2×2 block matrix `K` with its inverse `normalMass`, and the contact
points.  `validK` models `IsValid(GetK())` (the `K`/`normalMass` fields hold
the NaN sentinel when the block solver is disabled). -/
structure VelocityConstraint where
  bodyA : BodyConstraint
  bodyB : BodyConstraint
  normal : Vec2
  friction : ℚ
  restitution : ℚ
  tangentSpeed : ℚ
  K : Mat22
  normalMass : Mat22
  validK : Bool
  points : List VelocityConstraintPoint
deriving DecidableEq

/-- Models `vc.GetPointAt(i)`. -/
def VelocityConstraint.GetPointAt (vc : VelocityConstraint) (i : ℕ) : VelocityConstraintPoint :=
  vc.points.getD i default

/-- Models `vc.GetTangent()`: the forward perpendicular of the contact
normal (spec §4.E: `tangent = perpendicular(normal)`). -/
def VelocityConstraint.GetTangent (vc : VelocityConstraint) : Vec2 :=
  GetFwdPerpendicular vc.normal

/-- Models `vc.SetTangentImpulseAtPoint(i, value)`. -/
def VelocityConstraint.SetTangentImpulseAtPoint (vc : VelocityConstraint) (i : ℕ) (value : ℚ) :
    VelocityConstraint :=
  { vc with points := vc.points.set i { vc.GetPointAt i with tangentImpulse := value } }

/-- Models `vc.SetNormalImpulseAtPoint(i, value)`. -/
def VelocityConstraint.SetNormalImpulseAtPoint (vc : VelocityConstraint) (i : ℕ) (value : ℚ) :
    VelocityConstraint :=
  { vc with points := vc.points.set i { vc.GetPointAt i with normalImpulse := value } }

/-- Models `GetNormalImpulses(vc)` as the pair of accumulated normal
impulses. -/
def GetNormalImpulses (vc : VelocityConstraint) : Vec2 :=
  ⟨(vc.GetPointAt 0).normalImpulse, (vc.GetPointAt 1).normalImpulse⟩

/-- Models `SetNormalImpulses(vc, impulses)`. -/
def SetNormalImpulses (vc : VelocityConstraint) (impulses : Vec2) : VelocityConstraint :=
  (vc.SetNormalImpulseAtPoint 0 impulses.x).SetNormalImpulseAtPoint 1 impulses.y

/-- Models `ImpulseChange`: magnitude and direction of an impulse change. -/
structure ImpulseChange where
  magnitude : ℚ
  direction : Vec2
deriving DecidableEq

/-! ## Sequential tangent (friction) and normal passes (`ContactSolver.cpp`) -/

/-- Models the indexed `SolveTangentConstraint(vc, i)` (ContactSolver.cpp
lines 69–101): incremental tangent impulse with the accumulated impulse
clamped to `±friction · normalImpulse`. -/
def SolveTangentConstraintAt (vc : VelocityConstraint) (i : ℕ) : ImpulseChange :=
  let direction := vc.GetTangent
  let velA := vc.bodyA.velocity
  let velB := vc.bodyB.velocity
  let vcp := vc.GetPointAt i
  let lambda :=
    let dv := GetContactRelVelocity velA vcp.rA velB vcp.rB
    let directionalVel := vc.tangentSpeed - dot dv direction
    vcp.tangentMass * directionalVel
  let maxImpulse := vc.friction * vcp.normalImpulse
  let oldImpulse := vcp.tangentImpulse
  let newImpulse := Clamp (oldImpulse + lambda) (-maxImpulse) maxImpulse
  ⟨newImpulse - oldImpulse, direction⟩

/-- Models the indexed `SolveNormalConstraint(vc, i)` (ContactSolver.cpp
lines 103–125): incremental normal impulse with the accumulated impulse
clamped to be non-negative. -/
def SolveNormalConstraintAt (vc : VelocityConstraint) (i : ℕ) : ImpulseChange :=
  let direction := vc.normal
  let velA := vc.bodyA.velocity
  let velB := vc.bodyB.velocity
  let vcp := vc.GetPointAt i
  let lambda :=
    let dv := GetContactRelVelocity velA vcp.rA velB vcp.rB
    let directionalVel := dot dv direction
    vcp.normalMass * (directionalVel - vcp.velocityBias)
  let oldImpulse := vcp.normalImpulse
  let newImpulse := max (oldImpulse - lambda) 0
  ⟨newImpulse - oldImpulse, direction⟩

/-- Applies a per-point impulse change to the two bodies' velocities and adds
the magnitude onto the given accumulated impulse of point `i` (the repeated
body of the `switch` cases of the whole-constraint solvers, ContactSolver.cpp
lines 145–173 and 192–220).  `tangential` selects whether the tangent or the
normal accumulator is updated. -/
def ApplyChangeAt (vc : VelocityConstraint) (i : ℕ) (solution : ImpulseChange)
    (tangential : Bool) : VelocityConstraint :=
  let P := solution.magnitude • solution.direction
  let vcp := vc.GetPointAt i
  let velA' := vc.bodyA.velocity -
    Velocity.mk (vc.bodyA.invMass • P) (vc.bodyA.invRotInertia * cross vcp.rA P)
  let velB' := vc.bodyB.velocity +
    Velocity.mk (vc.bodyB.invMass • P) (vc.bodyB.invRotInertia * cross vcp.rB P)
  let vc' := { vc with bodyA := { vc.bodyA with velocity := velA' },
                       bodyB := { vc.bodyB with velocity := velB' } }
  if tangential then vc'.SetTangentImpulseAtPoint i (vcp.tangentImpulse + solution.magnitude)
  else vc'.SetNormalImpulseAtPoint i (vcp.normalImpulse + solution.magnitude)

/-- Models the whole-constraint `SolveTangentConstraint(vc)` (ContactSolver.cpp
lines 134–179): for a two-point constraint, point 1 then (fallthrough)
point 0; for a one-point constraint just point 0.  Returns the updated
constraint and the maximum incremental impulse magnitude. -/
def SolveTangentConstraint (vc : VelocityConstraint) : VelocityConstraint × ℚ :=
  match vc.points.length with
  | 2 =>
    let sol1 := SolveTangentConstraintAt vc 1
    let vc1 := ApplyChangeAt vc 1 sol1 true
    let sol0 := SolveTangentConstraintAt vc1 0
    let vc0 := ApplyChangeAt vc1 0 sol0 true
    (vc0, max (max 0 |sol1.magnitude|) |sol0.magnitude|)
  | 1 =>
    let sol0 := SolveTangentConstraintAt vc 0
    let vc0 := ApplyChangeAt vc 0 sol0 true
    (vc0, max 0 |sol0.magnitude|)
  | _ => (vc, 0)

/-- Models `SeqSolveNormalConstraint(vc)` (ContactSolver.cpp lines 181–225):
the sequential normal pass, point 1 then point 0 for two-point constraints. -/
def SeqSolveNormalConstraint (vc : VelocityConstraint) : VelocityConstraint × ℚ :=
  match vc.points.length with
  | 2 =>
    let sol1 := SolveNormalConstraintAt vc 1
    let vc1 := ApplyChangeAt vc 1 sol1 false
    let sol0 := SolveNormalConstraintAt vc1 0
    let vc0 := ApplyChangeAt vc1 0 sol0 false
    (vc0, max (max 0 |sol1.magnitude|) |sol0.magnitude|)
  | 1 =>
    let sol0 := SolveNormalConstraintAt vc 0
    let vc0 := ApplyChangeAt vc 0 sol0 false
    (vc0, max 0 |sol0.magnitude|)
  | _ => (vc, 0)

/-! ## 2×2 block LCP normal solver (`ContactSolver.cpp` lines 227–458) -/

/-- Models `ApplyImpulses(vc, impulses)` (lines 227–249): the velocity deltas
produced by applying the given pair of normal impulses at the two points. -/
def ApplyImpulses (vc : VelocityConstraint) (impulses : Vec2) : Velocity × Velocity :=
  let normal := vc.normal
  let P0 := impulses.x • normal
  let P1 := impulses.y • normal
  let P := P0 + P1
  ( -Velocity.mk (vc.bodyA.invMass • P)
      (vc.bodyA.invRotInertia * (cross (vc.GetPointAt 0).rA P0 + cross (vc.GetPointAt 1).rA P1)),
    Velocity.mk (vc.bodyB.invMass • P)
      (vc.bodyB.invRotInertia * (cross (vc.GetPointAt 0).rB P0 + cross (vc.GetPointAt 1).rB P1)) )

/-- Models `BlockSolveUpdate(vc, newImpulses)` (lines 251–258). -/
def BlockSolveUpdate (vc : VelocityConstraint) (newImpulses : Vec2) : VelocityConstraint × ℚ :=
  let delta_v := ApplyImpulses vc (newImpulses - GetNormalImpulses vc)
  let vc' := { vc with bodyA := { vc.bodyA with velocity := vc.bodyA.velocity + delta_v.1 },
                       bodyB := { vc.bodyB with velocity := vc.bodyB.velocity + delta_v.2 } }
  (SetNormalImpulses vc' newImpulses, max |newImpulses.x| |newImpulses.y|)

/-- Models `BlockSolveNormalCase1(vc, b_prime)` (lines 260–297): both points
active, `x = −K⁻¹·b'`; a `none` result models the `GetInvalid<RealNum>()`
(NaN) return. -/
def BlockSolveNormalCase1 (vc : VelocityConstraint) (b_prime : Vec2) :
    Option (VelocityConstraint × ℚ) :=
  let newImpulses := -(TransformMat b_prime vc.normalMass)
  if 0 ≤ newImpulses.x ∧ 0 ≤ newImpulses.y then
    some ((BlockSolveUpdate vc newImpulses).1, max newImpulses.x newImpulses.y)
  else none

/-- Models `BlockSolveNormalCase2(vc, b_prime)` (lines 299–329): only point 1
active. -/
def BlockSolveNormalCase2 (vc : VelocityConstraint) (b_prime : Vec2) :
    Option (VelocityConstraint × ℚ) :=
  let newImpulses := Vec2.mk (-(vc.GetPointAt 0).normalMass * b_prime.x) 0
  let vn2 := vc.K.ex.y * newImpulses.x + b_prime.y
  if 0 ≤ newImpulses.x ∧ 0 ≤ vn2 then
    some ((BlockSolveUpdate vc newImpulses).1, max newImpulses.x newImpulses.y)
  else none

/-- Models `BlockSolveNormalCase3(vc, b_prime)` (lines 331–361): only point 2
active. -/
def BlockSolveNormalCase3 (vc : VelocityConstraint) (b_prime : Vec2) :
    Option (VelocityConstraint × ℚ) :=
  let newImpulses := Vec2.mk 0 (-(vc.GetPointAt 1).normalMass * b_prime.y)
  let vn1 := vc.K.ey.x * newImpulses.y + b_prime.x
  if 0 ≤ newImpulses.y ∧ 0 ≤ vn1 then
    some ((BlockSolveUpdate vc newImpulses).1, max newImpulses.x newImpulses.y)
  else none

/-- Models `BlockSolveNormalCase4(vc, b_prime)` (lines 363–379): neither point
active. -/
def BlockSolveNormalCase4 (vc : VelocityConstraint) (b_prime : Vec2) :
    Option (VelocityConstraint × ℚ) :=
  let newImpulses : Vec2 := 0
  let vn1 := b_prime.x
  let vn2 := b_prime.y
  if 0 ≤ vn1 ∧ 0 ≤ vn2 then
    some ((BlockSolveUpdate vc newImpulses).1, max newImpulses.x newImpulses.y)
  else none

/-- Models the `b_prime` computation inside `BlockSolveNormalConstraint`
(lines 416–440): `b' = b − K·a` where `b` is the normal closing velocities
minus the velocity biases and `a` the accumulated normal impulses. -/
def ComputeBPrime (vc : VelocityConstraint) : Vec2 :=
  let K := vc.K
  let normal := vc.normal
  let velA := vc.bodyA.velocity
  let velB := vc.bodyB.velocity
  let dv0 := GetContactRelVelocity velA (vc.GetPointAt 0).rA velB (vc.GetPointAt 0).rB
  let dv1 := GetContactRelVelocity velA (vc.GetPointAt 1).rA velB (vc.GetPointAt 1).rB
  let vn1 := dot dv0 normal
  let vn2 := dot dv1 normal
  let b := Vec2.mk (vn1 - (vc.GetPointAt 0).velocityBias) (vn2 - (vc.GetPointAt 1).velocityBias)
  b - TransformMat (GetNormalImpulses vc) K

/-- Models `BlockSolveNormalConstraint(vc)` (lines 381–458): try the four LCP
cases in order; on all-fail return 0 leaving the constraint untouched. -/
def BlockSolveNormalConstraint (vc : VelocityConstraint) : VelocityConstraint × ℚ :=
  let b_prime := ComputeBPrime vc
  match BlockSolveNormalCase1 vc b_prime with
  | some r => r
  | none =>
    match BlockSolveNormalCase2 vc b_prime with
    | some r => r
    | none =>
      match BlockSolveNormalCase3 vc b_prime with
      | some r => r
      | none =>
        match BlockSolveNormalCase4 vc b_prime with
        | some r => r
        | none => (vc, 0)

/-- Models the whole-constraint `SolveNormalConstraint(vc)` (lines 463–473):
sequential when there is one point or `K` is invalid, else the block solver. -/
def SolveNormalConstraint (vc : VelocityConstraint) : VelocityConstraint × ℚ :=
  if vc.points.length = 1 ∨ vc.validK = false then SeqSolveNormalConstraint vc
  else BlockSolveNormalConstraint vc

/-- Models `box2d::SolveVelocityConstraint(vc)` (lines 475–486): the friction
(tangent) pass followed by the normal pass. -/
def SolveVelocityConstraint (vc : VelocityConstraint) : VelocityConstraint × ℚ :=
  let t := SolveTangentConstraint vc
  let n := SolveNormalConstraint t.1
  (n.1, max (max 0 t.2) n.2)

/-! ## Position solver (`ContactSolver.cpp` lines 488–642) -/

/-- Models `PositionSolverManifold` as consumed by `SolvePositionConstraint`:
world normal `m_normal`, world contact point `m_point`, and signed separation
`m_separation` (radii not yet subtracted). -/
structure PositionSolverManifold where
  normal : Vec2
  point : Vec2
  separation : ℚ
deriving DecidableEq

/-- Models `PositionSolution`: the two (possibly delta) positions plus the
minimum separation.  `⊤` models the `+∞` sentinel used when no work is done. -/
structure PositionSolution where
  pos_a : Position
  pos_b : Position
  min_separation : WithTop ℚ
deriving DecidableEq

/-- Models `Position{0,0}` as the zero of the solution components. -/
instance : Zero Position := ⟨⟨0, 0⟩⟩

/-- Models `ConstraintSolverConf`: the fields `SolvePositionConstraint`
reads. -/
structure ConstraintSolverConf where
  resolutionRate : ℚ
  linearSlop : ℚ
  maxLinearCorrection : ℚ
deriving DecidableEq

/-- Models the `moveA`/`moveB` boolean-as-0/1 multiplier of
`SolvePositionConstraint` (`GetInvMass() * moveA`). -/
def moveFactor (b : Bool) : ℚ := if b then 1 else 0

/-- Models `PositionConstraint`: the two body constraints, the two skin radii,
and the owning manifold's point count.  The manifold geometry itself enters
through the `GetPSM` collaborator, passed as a function parameter below. -/
structure PositionConstraint where
  bodyA : BodyConstraint
  bodyB : BodyConstraint
  radiusA : ℚ
  radiusB : ℚ
  pointCount : ℕ
deriving DecidableEq

/-- The local lambda `solver_fn` of `SolvePositionConstraint` (ContactSolver.cpp
lines 514–542) under guarded zero-effective-mass semantics: ℚ's division gives
`-C / K = 0` when `K = 0`, which coincides with the "zero effective mass →
skip the point" policy documented by spec §7.  Note the in-src code divides
*unguarded* at line 535, so at `K = 0` the float program instead produces a
non-finite correction; that error path is modelled faithfully by
`PositionSolverFnF` and decides claim C9 (a code bug).  The branch-structure
property of claim C8 does not depend on the division's value. -/
def PositionSolverFn (invMassA invInertiaA invMassB invInertiaB totalRadius : ℚ)
    (conf : ConstraintSolverConf) (psm : PositionSolverManifold) (pA pB : Vec2) :
    PositionSolution :=
  let separation := psm.separation - totalRadius
  let rA := psm.point - pA
  let rB := psm.point - pB
  let K :=
    let rnA := cross rA psm.normal
    let rnB := cross rB psm.normal
    (invMassA + invMassB) + invInertiaA * Square rnA + invInertiaB * Square rnB
  let C := Clamp (conf.resolutionRate * (separation + conf.linearSlop))
    (-conf.maxLinearCorrection) 0
  let P := (-C / K) • psm.normal
  ⟨ -Position.mk (invMassA • P) (invInertiaA * cross rA P),
    Position.mk (invMassB • P) (invInertiaB * cross rB P),
    (separation : WithTop ℚ) ⟩

/-- The `solver_fn` closure as instantiated by `SolvePositionConstraint`: the
per-body inverse masses and inertias are zeroed by the `moveA`/`moveB` flags
(ContactSolver.cpp lines 499–504), and the total radius is the sum of the two
skin radii (line 512). -/
def pcSolverFn (pc : PositionConstraint) (moveA moveB : Bool) (conf : ConstraintSolverConf) :
    PositionSolverManifold → Vec2 → Vec2 → PositionSolution :=
  PositionSolverFn (pc.bodyA.invMass * moveFactor moveA)
    (pc.bodyA.invRotInertia * moveFactor moveA)
    (pc.bodyB.invMass * moveFactor moveB)
    (pc.bodyB.invRotInertia * moveFactor moveB)
    (pc.radiusA + pc.radiusB) conf

/-- Models `box2d::SolvePositionConstraint(pc, moveA, moveB, conf)`
(ContactSolver.cpp lines 488–604).  The `GetPSM(pc.manifold, i, posA,
localCenterA, posB, localCenterB)` collaborator is passed as `getPSM i posA
posB` (the manifold and local centers are fixed for the constraint), and the
`almost_equal` float comparison as `almostEqual`. -/
def SolvePositionConstraint (pc : PositionConstraint)
    (getPSM : ℕ → Position → Position → PositionSolverManifold)
    (almostEqual : ℚ → ℚ → Bool) (moveA moveB : Bool) (conf : ConstraintSolverConf) :
    PositionSolution :=
  let solver_fn := pcSolverFn pc moveA moveB conf
  let posA := pc.bodyA.position
  let posB := pc.bodyB.position
  match pc.pointCount with
  | 1 =>
    let psm0 := getPSM 0 posA posB
    let s := solver_fn psm0 posA.linear posB.linear
    ⟨posA + s.pos_a, posB + s.pos_b, (0 : WithTop ℚ) + s.min_separation⟩
  | 2 =>
    let psm0 := getPSM 0 posA posB
    let psm1 := getPSM 1 posA posB
    if almostEqual psm0.separation psm1.separation then
      let s0 := solver_fn psm0 posA.linear posB.linear
      let s1 := solver_fn psm1 posA.linear posB.linear
      ⟨posA + s0.pos_a + s1.pos_a, posB + s0.pos_b + s1.pos_b, s0.min_separation⟩
    else if psm0.separation < psm1.separation then
      let s0 := solver_fn psm0 posA.linear posB.linear
      let posA' := posA + s0.pos_a
      let posB' := posB + s0.pos_b
      let psm1' := getPSM 1 posA' posB'
      let s1 := solver_fn psm1' posA'.linear posB'.linear
      ⟨posA' + s1.pos_a, posB' + s1.pos_b, s0.min_separation⟩
    else if psm1.separation < psm0.separation then
      let s1 := solver_fn psm1 posA.linear posB.linear
      let posA' := posA + s1.pos_a
      let posB' := posB + s1.pos_b
      let psm0' := getPSM 0 posA' posB'
      let s0 := solver_fn psm0' posA'.linear posB'.linear
      ⟨posA' + s0.pos_a, posB' + s0.pos_b, s1.min_separation⟩
    else
      ⟨posA, posB, ⊤⟩
  | _ => ⟨posA, posB, ⊤⟩

/-! ## Float-semantics model of the unguarded position correction

`solver_fn` computes `P = psm.m_normal * -C / K` (ContactSolver.cpp line 535)
with no guard on `K`.  Under IEEE float arithmetic a zero `K` makes the
quotient non-finite (`±inf` for `-C ≠ 0`, `NaN` for `-C = 0`), and every
operation applied to it downstream of the division — products (including by
0, since `0 · ±inf` and `0 · NaN` are `NaN`), sums and differences — again
yields a non-finite value.  `FloatQ` models exactly this: a finite rational,
or the absorbing non-finite `poison`; this is faithful for the property at
issue (whether a returned position can equal a finite input position), since
non-finiteness is invariant under the operations on this path. -/

/-- A float-semantics scalar: a finite rational or the non-finite poison
(`±inf`/`NaN`) produced by the unguarded division. -/
inductive FloatQ where
  | finite (q : ℚ)
  | poison
deriving DecidableEq

/-- Division of finite floats (models `x / K` at ContactSolver.cpp line 535):
non-finite whenever the divisor is zero. -/
def FloatQ.divQ (a k : ℚ) : FloatQ :=
  if k = 0 then FloatQ.poison else FloatQ.finite (a / k)

/-- Multiplication by a finite scalar; `0 · ±inf = 0 · NaN = NaN`, so poison
absorbs even a zero multiplier. -/
def FloatQ.scale (s : ℚ) : FloatQ → FloatQ
  | FloatQ.finite d => FloatQ.finite (s * d)
  | FloatQ.poison => FloatQ.poison

/-- Addition; any non-finite operand makes the result non-finite. -/
def FloatQ.addF : FloatQ → FloatQ → FloatQ
  | FloatQ.finite a, FloatQ.finite b => FloatQ.finite (a + b)
  | _, _ => FloatQ.poison

/-- Difference; any non-finite operand makes the result non-finite. -/
def FloatQ.subF : FloatQ → FloatQ → FloatQ
  | FloatQ.finite a, FloatQ.finite b => FloatQ.finite (a - b)
  | _, _ => FloatQ.poison

/-- Negation. -/
def FloatQ.negF : FloatQ → FloatQ
  | FloatQ.finite a => FloatQ.finite (-a)
  | FloatQ.poison => FloatQ.poison

/-- A two-dimensional vector of float-semantics scalars. -/
structure Vec2F where
  x : FloatQ
  y : FloatQ
deriving DecidableEq

/-- A position whose components may be non-finite. -/
structure PositionF where
  linear : Vec2F
  angular : FloatQ
deriving DecidableEq

/-- A `PositionSolution` whose position components may be non-finite. -/
structure PositionSolutionF where
  pos_a : PositionF
  pos_b : PositionF
  min_separation : WithTop ℚ
deriving DecidableEq

/-- The injection of a finite position. -/
def posToF (p : Position) : PositionF :=
  ⟨⟨FloatQ.finite p.linear.x, FloatQ.finite p.linear.y⟩, FloatQ.finite p.angular⟩

/-- A finite position plus a possibly-non-finite delta. -/
def addPosF (p : Position) (d : PositionF) : PositionF :=
  ⟨⟨FloatQ.addF (FloatQ.finite p.linear.x) d.linear.x,
    FloatQ.addF (FloatQ.finite p.linear.y) d.linear.y⟩,
    FloatQ.addF (FloatQ.finite p.angular) d.angular⟩

/-- The `solver_fn` lambda of `SolvePositionConstraint` (ContactSolver.cpp
lines 514–542) under float semantics: identical to `PositionSolverFn` up to
the unguarded division `psm.m_normal * -C / K` of line 535, which here
returns the non-finite poison when `K = 0` instead of ℚ's zero.  All inputs
(positions, manifold, configuration) are finite, so the division is the only
source of non-finiteness, exactly as in the source. -/
def PositionSolverFnF (invMassA invInertiaA invMassB invInertiaB totalRadius : ℚ)
    (conf : ConstraintSolverConf) (psm : PositionSolverManifold) (pA pB : Vec2) :
    PositionSolutionF :=
  let separation := psm.separation - totalRadius
  let rA := psm.point - pA
  let rB := psm.point - pB
  let K :=
    let rnA := cross rA psm.normal
    let rnB := cross rB psm.normal
    (invMassA + invMassB) + invInertiaA * Square rnA + invInertiaB * Square rnB
  let C := Clamp (conf.resolutionRate * (separation + conf.linearSlop))
    (-conf.maxLinearCorrection) 0
  let P : Vec2F := ⟨FloatQ.divQ (psm.normal.x * -C) K, FloatQ.divQ (psm.normal.y * -C) K⟩
  let crossAP := FloatQ.subF (FloatQ.scale rA.x P.y) (FloatQ.scale rA.y P.x)
  let crossBP := FloatQ.subF (FloatQ.scale rB.x P.y) (FloatQ.scale rB.y P.x)
  ⟨⟨⟨FloatQ.negF (FloatQ.scale invMassA P.x), FloatQ.negF (FloatQ.scale invMassA P.y)⟩,
      FloatQ.negF (FloatQ.scale invInertiaA crossAP)⟩,
    ⟨⟨FloatQ.scale invMassB P.x, FloatQ.scale invMassB P.y⟩,
      FloatQ.scale invInertiaB crossBP⟩,
    (separation : WithTop ℚ)⟩

/-- The one-manifold-point branch of `SolvePositionConstraint`
(ContactSolver.cpp lines 551–555) under float semantics: the solver manifold
is computed from the (finite) input positions and the single `solver_fn`
correction is added to them.  Only this branch needs the float model — it
already reaches the unguarded division. -/
def SolvePositionConstraintF1 (pc : PositionConstraint)
    (getPSM : ℕ → Position → Position → PositionSolverManifold)
    (moveA moveB : Bool) (conf : ConstraintSolverConf) : PositionF × PositionF :=
  let psm0 := getPSM 0 pc.bodyA.position pc.bodyB.position
  let s := PositionSolverFnF (pc.bodyA.invMass * moveFactor moveA)
    (pc.bodyA.invRotInertia * moveFactor moveA)
    (pc.bodyB.invMass * moveFactor moveB)
    (pc.bodyB.invRotInertia * moveFactor moveB)
    (pc.radiusA + pc.radiusB) conf psm0 pc.bodyA.position.linear pc.bodyB.position.linear
  (addPosF pc.bodyA.position s.pos_a, addPosF pc.bodyB.position s.pos_b)

/-- A one-point constraint between two dynamic bodies that are pinned by the
TOI flag-zeroing loop (neither is a body of the earliest impact, so
`SolvePositionConstraints` passes `moveA = moveB = false`,
ContactSolver.cpp lines 631–639). -/
def pinnedPc : PositionConstraint :=
  { bodyA := { invMass := 1, invRotInertia := 1, localCenter := ⟨0, 0⟩,
               position := ⟨⟨0, 0⟩, 0⟩, velocity := ⟨⟨0, 0⟩, 0⟩ }
    bodyB := { invMass := 1, invRotInertia := 1, localCenter := ⟨0, 0⟩,
               position := ⟨⟨0, 2⟩, 0⟩, velocity := ⟨⟨0, 0⟩, 0⟩ }
    radiusA := 0
    radiusB := 0
    pointCount := 1 }

/-- The solver manifold of the pinned pair: normal `(0,1)`, contact point
`(0,1)`, separation −1 (a genuinely penetrating contact). -/
def pinnedPSM : ℕ → Position → Position → PositionSolverManifold :=
  fun _ _ _ => ⟨⟨0, 1⟩, ⟨0, 1⟩, -1⟩

/-- Default-like solver configuration for the pinned-pair run. -/
def pinnedConf : ConstraintSolverConf := ⟨1/5, 1/200, 1/5⟩

/-! ## Time of impact (`Collision/TimeOfImpact.cpp`) -/

/-- Models the numeric configuration the TOI code reads (spec §6; the
`Settings` header is not among the translated sources): `LinearSlop ≈ 0.005`
length units. -/
def LinearSlop : ℚ := 1 / 200

/-- Models `MaxTOIIterations` (spec §6: 20). -/
def MaxTOIIterations : ℕ := 20

/-- Models `MaxTOIRootIterCount` (spec §6: 50). -/
def MaxTOIRootIterCount : ℕ := 50

/-- Models `MaxPolygonVertices` (spec §6: platform-configured, ≥ 8; only the
finiteness of this inner-loop bound matters to the theorems below). -/
def MaxPolygonVertices : ℕ := 8

/-- Models `target = Max(LinearSlop, totalRadius - 3 * LinearSlop)`
(TimeOfImpact.cpp line 247). -/
def toiTargetDepth (totalRadius : ℚ) : ℚ := max LinearSlop (totalRadius - 3 * LinearSlop)

/-- Models `tolerance = LinearSlop / 4` (TimeOfImpact.cpp line 248). -/
def toiToleranceDepth : ℚ := LinearSlop / 4

/-- `minTarget = target - tolerance` for given proxy radii. -/
def toiMinTarget (radiusA radiusB : ℚ) : ℚ :=
  toiTargetDepth (radiusA + radiusB) - toiToleranceDepth

/-- `maxTarget = target + tolerance` for given proxy radii. -/
def toiMaxTarget (radiusA radiusB : ℚ) : ℚ :=
  toiTargetDepth (radiusA + radiusB) + toiToleranceDepth

/-- Models `IndexPair`: the pair of proxy vertex indices of a witness. -/
structure IndexPair where
  a : ℕ
  b : ℕ
deriving DecidableEq

/-- Models `TOIOutput::State`. -/
inductive TOIState where
  | unknown
  | failed
  | overlapped
  | touching
  | separated
deriving DecidableEq

/-- Models `TOIOutput`: a state and a time factor. -/
structure TOIOutput where
  state : TOIState
  t : ℚ
deriving DecidableEq

/-- The interface of `SeparationFunction` (TimeOfImpact.cpp lines 46–231) as
used by the TOI loop: `findMin t` models `FindMinSeparation(t)` (witness index
pair and its separation) and `eval ip t` models `Evaluate(ip, t)`.  The
geometric construction of the axis normalizes vectors (square roots), so the
function is passed in extensionally; every theorem below holds for all
separation functions. -/
structure SeparationFunction where
  findMin : ℚ → IndexPair × ℚ
  eval : IndexPair → ℚ → ℚ

/-- Models the hybrid secant step
`a1 + (target - s1) * (a2 - a1) / (s2 - s1)` (TimeOfImpact.cpp line 378). -/
def secantStep (target s1 s2 a1 a2 : ℚ) : ℚ := a1 + (target - s1) * (a2 - a1) / (s2 - s1)

/-- Models the bisection step `(a1 + a2) / 2` (TimeOfImpact.cpp line 379). -/
def bisectionStep (a1 a2 : ℚ) : ℚ := (a1 + a2) / 2

/-- The candidate `t` computed by the root finder when the iteration counter
holds `count` (TimeOfImpact.cpp lines 377–379): the secant step when
`rootIterCount & 1` is set (odd counter), the bisection midpoint otherwise. -/
def toiRootStep (target : ℚ) (count : ℕ) (a1 a2 s1 s2 : ℚ) : ℚ :=
  if count % 2 = 1 then secantStep target s1 s2 a1 a2 else bisectionStep a1 a2

/-- Models the 1-D root-finder do-while loop of `TimeOfImpact`
(TimeOfImpact.cpp lines 369–402).  Arguments after the fuel: the iteration
counter `rootIterCount`, the bracket `a1 a2` with separations `s1 s2`, and the
current value of the enclosing loop's `t2` (only overwritten when the
tolerance break fires).  Returns the resulting `t2` and the final
`rootIterCount`.  The fuel starts at `MaxTOIRootIterCount` and mirrors
`rootIterCount < MaxTOIRootIterCount`. -/
def toiRoot (evalF : ℚ → ℚ) (target tolerance : ℚ) :
    ℕ → ℕ → ℚ → ℚ → ℚ → ℚ → ℚ → ℚ × ℕ
  | 0, rootIterCount, _, _, _, _, t2 => (t2, rootIterCount)
  | fuel + 1, rootIterCount, a1, a2, s1, s2, t2 =>
    let t := toiRootStep target rootIterCount a1 a2 s1 s2
    let rootIterCount' := rootIterCount + 1
    let s := evalF t
    if |s - target| < tolerance then (t, rootIterCount')
    else if s > target then
      if rootIterCount' < MaxTOIRootIterCount then
        toiRoot evalF target tolerance fuel rootIterCount' t a2 s s2 t2
      else (t2, rootIterCount')
    else
      if rootIterCount' < MaxTOIRootIterCount then
        toiRoot evalF target tolerance fuel rootIterCount' a1 t s1 s t2
      else (t2, rootIterCount')

/-- Result of the inner push-back loop of `TimeOfImpact`: either the whole
query finished with an output, or the loop broke/exhausted leaving a (possibly
advanced) lower time bound `t1`. -/
inductive ToiInnerResult where
  | finished (out : TOIOutput)
  | advanced (t1 : ℚ)
deriving DecidableEq

/-- Models the inner push-back loop of `TimeOfImpact` (TimeOfImpact.cpp lines
317–406): find the deepest point at `t2`, classify against the target band,
and otherwise root-find a new `t2`.  The fuel starts at
`MaxPolygonVertices`. -/
def toiInner (fcn : SeparationFunction) (target tolerance minTarget maxTarget t1 : ℚ) :
    ℕ → ℚ → ToiInnerResult
  | 0, _ => .advanced t1
  | fuel + 1, t2 =>
    let minSeparation := fcn.findMin t2
    let indexPair := minSeparation.1
    let s2 := minSeparation.2
    if s2 > maxTarget then .finished ⟨.separated, t2⟩
    else if s2 > minTarget then .advanced t2
    else
      let s1 := fcn.eval indexPair t1
      if s1 < minTarget then .finished ⟨.failed, t1⟩
      else if s1 ≤ maxTarget then .finished ⟨.touching, t1⟩
      else
        let root := toiRoot (fcn.eval indexPair) target tolerance
          MaxTOIRootIterCount 0 t1 t2 s1 s2 t2
        toiInner fcn target tolerance minTarget maxTarget t1 fuel root.1

/-- Models the outer loop of `TimeOfImpact` (TimeOfImpact.cpp lines 262–420)
over an abstract GJK distance query.  `distQ cache t` models running
`Distance(cache, proxyA, GetTransform(sweepA, t), proxyB, GetTransform(sweepB,
t))` followed by `DistanceSquared` on the witness points, returning the
squared witness distance and the updated simplex cache;
`fcnOf cache t1` models constructing `SeparationFunction(cache, proxyA,
sweepA, proxyB, sweepB, t1)`.  Returns the `TOIOutput` together with the
final outer iteration count `iter`.  The fuel starts at `MaxTOIIterations`
and the explicit `iter` argument mirrors the source's counter. -/
def toiLoop {σ : Type} (distQ : σ → ℚ → ℚ × σ) (fcnOf : σ → ℚ → SeparationFunction)
    (target tolerance minTarget maxTarget tMax : ℚ) :
    ℕ → ℕ → ℚ → σ → TOIOutput × ℕ
  | 0, iter, _, _ => (⟨.unknown, tMax⟩, iter)
  | fuel + 1, iter, t1, cache =>
    let dq := distQ cache t1
    let distanceSquared := dq.1
    let cache' := dq.2
    if distanceSquared ≤ 0 then (⟨.overlapped, 0⟩, iter)
    else if distanceSquared < Square maxTarget then (⟨.touching, t1⟩, iter)
    else
      let fcn := fcnOf cache' t1
      let inner := toiInner fcn target tolerance minTarget maxTarget t1 MaxPolygonVertices tMax
      let iter' := iter + 1
      match inner with
      | .finished out => (out, iter')
      | .advanced t1' =>
        if iter' = MaxTOIIterations then (⟨.failed, t1'⟩, iter')
        else toiLoop distQ fcnOf target tolerance minTarget maxTarget tMax fuel iter' t1' cache'

/-- Models `box2d::TimeOfImpact(proxyA, sweepA, proxyB, sweepB, tMax)`
(TimeOfImpact.cpp lines 235–425): computes the target band from the proxy
radii (lines 246–252) and runs the outer loop from `t1 = 0` with the initial
simplex cache `c0`.  The proxies and (angle-normalized) sweeps enter through
the abstract collaborators `distQ` and `fcnOf`; the iteration-count component
of the result mirrors the source's `iter` statistic. -/
def TimeOfImpact {σ : Type} (distQ : σ → ℚ → ℚ × σ) (fcnOf : σ → ℚ → SeparationFunction)
    (c0 : σ) (radiusA radiusB tMax : ℚ) : TOIOutput × ℕ :=
  let totalRadius := radiusA + radiusB
  let target := toiTargetDepth totalRadius
  let tolerance := toiToleranceDepth
  let maxTarget := target + tolerance
  let minTarget := target - tolerance
  toiLoop distQ fcnOf target tolerance minTarget maxTarget tMax MaxTOIIterations 0 0 c0

/-! ## Component-level facts about the embedded primitives -/

/-! Auxiliary definitions used by the claim theorems below: invariant
predicates, named intermediate quantities of the solver passes, reference
formulations, and the concrete inputs of the witness and counterexample runs. -/

/-- The minimum-separation invariant: any two stored vertices (in storage
order) are strictly farther apart than the squared threshold. -/
def VertexSet.Separated (s : VertexSet) : Prop :=
  s.elements.Pairwise (fun a b => s.minSepSquared < GetLengthSquared (a - b))

/-- Every accumulated normal impulse of the constraint is non-negative. -/
def VelocityConstraint.NonnegNormals (vc : VelocityConstraint) : Prop :=
  ∀ p ∈ vc.points, 0 ≤ p.normalImpulse

/-- The incremental tangent impulse `lambda` of the friction pass at point `i`
(the local of `SolveTangentConstraint(vc, i)`). -/
def tangentLambda (vc : VelocityConstraint) (i : ℕ) : ℚ :=
  (vc.GetPointAt i).tangentMass *
    (vc.tangentSpeed - dot (GetContactRelVelocity vc.bodyA.velocity (vc.GetPointAt i).rA
      vc.bodyB.velocity (vc.GetPointAt i).rB) vc.GetTangent)

/-- `maxImpulse = friction * normalImpulse` of the friction pass at point
`i`. -/
def tangentMaxImpulse (vc : VelocityConstraint) (i : ℕ) : ℚ :=
  vc.friction * (vc.GetPointAt i).normalImpulse

/-- The clamped accumulated tangent impulse produced by the friction pass at
point `i`. -/
def tangentClamped (vc : VelocityConstraint) (i : ℕ) : ℚ :=
  Clamp ((vc.GetPointAt i).tangentImpulse + tangentLambda vc i)
    (-tangentMaxImpulse vc i) (tangentMaxImpulse vc i)

/-- A one-point velocity constraint on which the claimed friction bound fails
at the exit of `SolveVelocityConstraint`: the tangent pass clamps the
accumulated tangent impulse (1) against `friction · normalImpulse = 1 · 1`,
after which the normal pass sees a separating normal closing velocity of `2`
and reduces the accumulated normal impulse to 0. -/
def frictionBoundCx : VelocityConstraint :=
  { bodyA := { invMass := 0, invRotInertia := 0, localCenter := ⟨0, 0⟩,
               position := ⟨⟨0, 0⟩, 0⟩, velocity := ⟨⟨0, 0⟩, 0⟩ }
    bodyB := { invMass := 0, invRotInertia := 0, localCenter := ⟨0, 0⟩,
               position := ⟨⟨0, 0⟩, 0⟩, velocity := ⟨⟨2, 0⟩, 0⟩ }
    normal := ⟨1, 0⟩
    friction := 1
    restitution := 0
    tangentSpeed := 0
    K := ⟨⟨0, 0⟩, ⟨0, 0⟩⟩
    normalMass := ⟨⟨0, 0⟩, ⟨0, 0⟩⟩
    validK := false
    points := [{ rA := ⟨0, 0⟩, rB := ⟨0, 0⟩, normalImpulse := 1, tangentImpulse := 1,
                 normalMass := 1, tangentMass := 1, velocityBias := 0 }] }

/-- A two-point constraint whose LCP has no solution among the four cases:
`K = [[1, -2], [-2, 1]]` (indefinite), `b' = (-1, -1)`. -/
def blockGiveupCx : VelocityConstraint :=
  { bodyA := { invMass := 0, invRotInertia := 0, localCenter := ⟨0, 0⟩,
               position := ⟨⟨0, 0⟩, 0⟩, velocity := ⟨⟨0, 0⟩, 0⟩ }
    bodyB := { invMass := 0, invRotInertia := 0, localCenter := ⟨0, 0⟩,
               position := ⟨⟨0, 0⟩, 0⟩, velocity := ⟨⟨0, 0⟩, 0⟩ }
    normal := ⟨1, 0⟩
    friction := 0
    restitution := 0
    tangentSpeed := 0
    K := ⟨⟨1, -2⟩, ⟨-2, 1⟩⟩
    normalMass := ⟨⟨-1/3, -2/3⟩, ⟨-2/3, -1/3⟩⟩
    validK := true
    points := [{ rA := ⟨0, 0⟩, rB := ⟨0, 0⟩, normalImpulse := 0, tangentImpulse := 0,
                 normalMass := 1, tangentMass := 0, velocityBias := 1 },
               { rA := ⟨0, 0⟩, rB := ⟨0, 0⟩, normalImpulse := 0, tangentImpulse := 0,
                 normalMass := 1, tangentMass := 0, velocityBias := 1 }] }

/-- Reference formulation: both points resolved simultaneously from the
original body positions, the returned minimum separation being point 0's. -/
def SimultaneousSolution (pc : PositionConstraint)
    (getPSM : ℕ → Position → Position → PositionSolverManifold)
    (moveA moveB : Bool) (conf : ConstraintSolverConf) : PositionSolution :=
  let fn := pcSolverFn pc moveA moveB conf
  let posA := pc.bodyA.position
  let posB := pc.bodyB.position
  let s0 := fn (getPSM 0 posA posB) posA.linear posB.linear
  let s1 := fn (getPSM 1 posA posB) posA.linear posB.linear
  ⟨posA + s0.pos_a + s1.pos_a, posB + s0.pos_b + s1.pos_b, s0.min_separation⟩

/-- Reference formulation: point `first` resolved from the original positions,
then point `second` re-evaluated (its solver manifold recomputed by `getPSM`)
at the updated positions before being resolved. -/
def SequentialSolution (pc : PositionConstraint)
    (getPSM : ℕ → Position → Position → PositionSolverManifold)
    (moveA moveB : Bool) (conf : ConstraintSolverConf) (first second : ℕ) : PositionSolution :=
  let fn := pcSolverFn pc moveA moveB conf
  let posA := pc.bodyA.position
  let posB := pc.bodyB.position
  let sF := fn (getPSM first posA posB) posA.linear posB.linear
  let posA' := posA + sF.pos_a
  let posB' := posB + sF.pos_b
  let sS := fn (getPSM second posA' posB') posA'.linear posB'.linear
  ⟨posA' + sS.pos_a, posB' + sS.pos_b, sF.min_separation⟩

/-- A two-point position constraint used to witness the resolution order. -/
def posOrderPc : PositionConstraint :=
  { bodyA := { invMass := 1, invRotInertia := 0, localCenter := ⟨0, 0⟩,
               position := ⟨⟨0, 0⟩, 0⟩, velocity := ⟨⟨0, 0⟩, 0⟩ }
    bodyB := { invMass := 1, invRotInertia := 0, localCenter := ⟨0, 0⟩,
               position := ⟨⟨0, 2⟩, 0⟩, velocity := ⟨⟨0, 0⟩, 0⟩ }
    radiusA := 0
    radiusB := 0
    pointCount := 2 }

/-- A solver-manifold collaborator whose point 0 penetrates deeper than its
point 1 (separations −1 and 1). -/
def posOrderPSM : ℕ → Position → Position → PositionSolverManifold :=
  fun i _ _ => ⟨⟨0, 1⟩, ⟨0, 0⟩, if i = 0 then -1 else 1⟩

/-- A GJK collaborator reporting squared witness distance 0 at all times (two
proxies whose witness points coincide from the start). -/
def overlapDistQ : Unit → ℚ → ℚ × Unit := fun c _ => (0, c)

/-- A trivial separation-function collaborator (never reached in the witness
runs that use it). -/
def stubFcn : Unit → ℚ → SeparationFunction :=
  fun _ _ => ⟨fun _ => (⟨0, 0⟩, 0), fun _ _ => 0⟩

/-- A GJK collaborator reporting a large separation (squared distance 4). -/
def toiFailDistQ : Unit → ℚ → ℚ × Unit := fun c _ => (4, c)

/-- A separation function whose minimum separation is 0 but whose evaluation
at the witness pair is −1: the conservative axis disagrees with the query and
triggers the `s1 < minTarget` failure exit. -/
def toiFailFcn : Unit → ℚ → SeparationFunction :=
  fun _ _ => ⟨fun _ => (⟨0, 0⟩, 0), fun _ _ => -1⟩

/-- A separation function whose minimum separation is 0 and whose evaluation
at the witness pair is 2: it drives the inner loop into the root finder. -/
def rootWitFcn : SeparationFunction := ⟨fun _ => (⟨0, 0⟩, 0), fun _ _ => 2⟩

/-- GJK collaborator for two stationary point proxies whose centers are
`LinearSlop = 1/200` apart: squared witness distance `1/40000` at all times. -/
def overlapBandDistQ : Unit → ℚ → ℚ × Unit := fun c _ => (1 / 40000, c)

/-- The matching separation function for the two stationary point proxies:
the witness separation is `1/200` at every time. -/
def overlapBandFcn : Unit → ℚ → SeparationFunction :=
  fun _ _ => ⟨fun _ => (⟨0, 0⟩, 1 / 200), fun _ _ => 1 / 200⟩

theorem Vec2.sub_x (a b : Vec2) : (a - b).x = a.x - b.x := rfl

theorem Vec2.sub_y (a b : Vec2) : (a - b).y = a.y - b.y := rfl

/-- Squared length is symmetric in the difference's orientation. -/
theorem GetLengthSquared_sub_comm (a b : Vec2) :
    GetLengthSquared (a - b) = GetLengthSquared (b - a) := by
  simp only [GetLengthSquared, Square, Vec2.sub_x, Vec2.sub_y]
  ring

/-- The clamp to a symmetric interval `[-M, M]` with `0 ≤ M` bounds the
absolute value by `M`. -/
theorem abs_Clamp_le (a M : ℚ) (hM : 0 ≤ M) : |Clamp a (-M) M| ≤ M := by
  rw [Clamp, abs_le]
  refine ⟨le_max_left _ _, max_le (by linarith) (min_le_right a M)⟩

/-! ## C10: VertexSet minimum-separation invariant -/

theorem VertexSet.find_eq_none_iff (s : VertexSet) (value : Vec2) :
    s.find value = none ↔ ∀ e ∈ s.elements, s.minSepSquared < GetLengthSquared (value - e) := by
  simp [VertexSet.find, List.find?_eq_none, not_le]

theorem VertexSet.add_preserves_separated (s : VertexSet) (value : Vec2)
    (h : s.Separated) : ((s.add value).1).Separated := by
  by_cases hf : (s.find value).isSome
  · simpa [VertexSet.add, hf] using h
  · rw [Option.not_isSome_iff_eq_none] at hf
    have hff := (VertexSet.find_eq_none_iff s value).mp hf
    have hset : (s.add value).1 = { s with elements := s.elements ++ [value] } := by
      simp [VertexSet.add, hf]
    rw [hset]
    unfold VertexSet.Separated at h ⊢
    simp only [List.pairwise_append, List.pairwise_singleton, List.mem_singleton]
    refine ⟨h, trivial, ?_⟩
    intro a ha b hb
    subst hb
    rw [GetLengthSquared_sub_comm]
    exact hff a ha

theorem VertexSet.add_minSep (s : VertexSet) (value : Vec2) :
    ((s.add value).1).minSepSquared = s.minSepSquared := by
  by_cases hf : (s.find value).isSome <;> simp [VertexSet.add, hf]

theorem VertexSet.run_minSep (ops : List VertexSetOp) :
    ∀ s : VertexSet, (s.run ops).minSepSquared = s.minSepSquared := by
  induction ops with
  | nil => intro s; rfl
  | cons op rest ih =>
    intro s
    cases op with
    | add v => rw [VertexSet.run, ih, VertexSet.add_minSep]
    | clear => rw [VertexSet.run, ih]; rfl

theorem VertexSet.run_preserves_separated (ops : List VertexSetOp) :
    ∀ s : VertexSet, s.Separated → (s.run ops).Separated := by
  induction ops with
  | nil => intro s h; exact h
  | cons op rest ih =>
    intro s h
    cases op with
    | add v => exact ih _ (VertexSet.add_preserves_separated s v h)
    | clear => exact ih _ (by simp [VertexSet.clear, VertexSet.Separated])

/-- Claim C10. `VertexSet::add(v)` returns `false` and leaves the elements
unchanged exactly when some stored vertex is within the minimum separation of
`v` (squared distance at most `GetMinSeparationSquared()`), and otherwise
appends `v` and returns `true`; consequently, after any sequence of `add` and
`clear` calls on a freshly constructed set, any two vertices stored at
distinct indices are separated by a squared distance strictly greater than
`GetMinSeparationSquared()`. -/
theorem vertexSet_add_spec_and_separation_invariant (s : VertexSet) (value : Vec2)
    (m : ℚ) (ops : List VertexSetOp) :
    ((∃ e ∈ s.elements, GetLengthSquared (value - e) ≤ s.minSepSquared) →
      s.add value = (s, false)) ∧
    ((∀ e ∈ s.elements, s.minSepSquared < GetLengthSquared (value - e)) →
      s.add value = ({ s with elements := s.elements ++ [value] }, true)) ∧
    (∀ i j : Fin (((VertexSet.empty m).run ops).elements.length), i ≠ j →
      m < GetLengthSquared ((((VertexSet.empty m).run ops).elements.get i) -
        (((VertexSet.empty m).run ops).elements.get j))) := by
  refine ⟨?_, ?_, ?_⟩
  · intro ⟨e, he, hle⟩
    have hsome : (s.find value).isSome := by
      rw [Option.isSome_iff_ne_none]
      intro hnone
      exact absurd hle (not_le.mpr ((VertexSet.find_eq_none_iff s value).mp hnone e he))
    simp [VertexSet.add, hsome]
  · intro hall
    have hnone : s.find value = none := (VertexSet.find_eq_none_iff s value).mpr hall
    simp [VertexSet.add, hnone]
  · intro i j hij
    have hsep : ((VertexSet.empty m).run ops).Separated :=
      VertexSet.run_preserves_separated ops _ (by simp [VertexSet.empty, VertexSet.Separated])
    have hm : ((VertexSet.empty m).run ops).minSepSquared = m :=
      VertexSet.run_minSep ops (VertexSet.empty m)
    have hget := List.pairwise_iff_get.mp hsep
    rcases lt_trichotomy (i : ℕ) (j : ℕ) with hlt | heq | hgt
    · have := hget i j (by exact hlt)
      rwa [hm] at this
    · exact absurd (Fin.ext heq) hij
    · have := hget j i (by exact hgt)
      rw [hm] at this
      rwa [GetLengthSquared_sub_comm]

/-- Witness for C10: on the set `{(0,0)}` with threshold 1, adding `(0,0)`
again is rejected (squared distance 0 ≤ 1) while adding `(2,0)` succeeds
(squared distance 4 > 1). -/
theorem vertexSet_add_spec_witness :
    VertexSet.add ⟨[⟨0, 0⟩], 1⟩ ⟨0, 0⟩ = (⟨[⟨0, 0⟩], 1⟩, false) ∧
    VertexSet.add ⟨[⟨0, 0⟩], 1⟩ ⟨2, 0⟩ = (⟨[⟨0, 0⟩, ⟨2, 0⟩], 1⟩, true) := by
  constructor
  · refine (vertexSet_add_spec_and_separation_invariant ⟨[⟨0, 0⟩], 1⟩ ⟨0, 0⟩ 1 []).1 ?_
    refine ⟨⟨0, 0⟩, by simp, ?_⟩
    norm_num [GetLengthSquared, Square, Vec2.sub_x, Vec2.sub_y]
  · refine (vertexSet_add_spec_and_separation_invariant ⟨[⟨0, 0⟩], 1⟩ ⟨2, 0⟩ 1 []).2.1 ?_
    intro e he
    simp only [List.mem_singleton] at he
    subst he
    norm_num [GetLengthSquared, Square, Vec2.sub_x, Vec2.sub_y]

/-! ## C3: non-negativity of accumulated normal impulses -/

theorem VelocityConstraint.getPointAt_normal_nonneg (vc : VelocityConstraint)
    (h : vc.NonnegNormals) (i : ℕ) : 0 ≤ (vc.GetPointAt i).normalImpulse := by
  unfold VelocityConstraint.GetPointAt
  rcases lt_or_le i vc.points.length with hi | hi
  · rw [List.getD_eq_getElem _ _ hi]
    exact h _ (vc.points.getElem_mem hi)
  · rw [List.getD_eq_default _ _ hi]
    exact le_rfl

theorem setTangentImpulse_nonneg (vc : VelocityConstraint) (i : ℕ) (value : ℚ)
    (h : vc.NonnegNormals) : (vc.SetTangentImpulseAtPoint i value).NonnegNormals := by
  intro p hp
  rcases List.mem_or_eq_of_mem_set hp with hmem | rfl
  · exact h p hmem
  · exact vc.getPointAt_normal_nonneg h i

theorem setNormalImpulse_nonneg (vc : VelocityConstraint) (i : ℕ) (value : ℚ)
    (hv : 0 ≤ value) (h : vc.NonnegNormals) :
    (vc.SetNormalImpulseAtPoint i value).NonnegNormals := by
  intro p hp
  rcases List.mem_or_eq_of_mem_set hp with hmem | rfl
  · exact h p hmem
  · exact hv

theorem applyChangeAt_tangential_nonneg (vc : VelocityConstraint) (i : ℕ)
    (sol : ImpulseChange) (h : vc.NonnegNormals) :
    (ApplyChangeAt vc i sol true).NonnegNormals := by
  unfold ApplyChangeAt
  simp only [if_pos]
  exact setTangentImpulse_nonneg _ i _ (fun p hp => h p hp)

theorem applyChangeAt_normal_nonneg (vc : VelocityConstraint) (i : ℕ)
    (h : vc.NonnegNormals) :
    (ApplyChangeAt vc i (SolveNormalConstraintAt vc i) false).NonnegNormals := by
  unfold ApplyChangeAt
  simp only [Bool.false_eq_true, if_false]
  refine setNormalImpulse_nonneg _ i _ ?_ (fun p hp => h p hp)
  show 0 ≤ (vc.GetPointAt i).normalImpulse + (SolveNormalConstraintAt vc i).magnitude
  unfold SolveNormalConstraintAt
  simp only
  rw [add_sub_cancel]
  exact le_max_right _ _

theorem solveTangentConstraint_nonneg (vc : VelocityConstraint) (h : vc.NonnegNormals) :
    (SolveTangentConstraint vc).1.NonnegNormals := by
  unfold SolveTangentConstraint
  rcases hl : vc.points.length with _ | _ | _ | n
  · exact h
  · exact applyChangeAt_tangential_nonneg _ 0 _ h
  · exact applyChangeAt_tangential_nonneg _ 0 _ (applyChangeAt_tangential_nonneg _ 1 _ h)
  · exact h

theorem seqSolveNormalConstraint_nonneg (vc : VelocityConstraint) (h : vc.NonnegNormals) :
    (SeqSolveNormalConstraint vc).1.NonnegNormals := by
  unfold SeqSolveNormalConstraint
  rcases hl : vc.points.length with _ | _ | _ | n
  · exact h
  · exact applyChangeAt_normal_nonneg _ 0 h
  · exact applyChangeAt_normal_nonneg _ 0 (applyChangeAt_normal_nonneg _ 1 h)
  · exact h

theorem blockSolveUpdate_nonneg (vc : VelocityConstraint) (imp : Vec2)
    (hx : 0 ≤ imp.x) (hy : 0 ≤ imp.y) (h : vc.NonnegNormals) :
    (BlockSolveUpdate vc imp).1.NonnegNormals := by
  unfold BlockSolveUpdate SetNormalImpulses
  simp only
  exact setNormalImpulse_nonneg _ 1 _ hy (setNormalImpulse_nonneg _ 0 _ hx
    (fun p hp => h p hp))

theorem blockSolveCases_nonneg (vc : VelocityConstraint) (b_prime : Vec2)
    (r : VelocityConstraint × ℚ) (h : vc.NonnegNormals)
    (hcase : BlockSolveNormalCase1 vc b_prime = some r ∨
      BlockSolveNormalCase2 vc b_prime = some r ∨
      BlockSolveNormalCase3 vc b_prime = some r ∨
      BlockSolveNormalCase4 vc b_prime = some r) :
    r.1.NonnegNormals := by
  rcases hcase with h1 | h2 | h3 | h4
  · unfold BlockSolveNormalCase1 at h1
    dsimp only at h1
    split_ifs at h1 with hg
    cases h1
    exact blockSolveUpdate_nonneg _ _ hg.1 hg.2 h
  · unfold BlockSolveNormalCase2 at h2
    dsimp only at h2
    split_ifs at h2 with hg
    cases h2
    exact blockSolveUpdate_nonneg _ _ hg.1 le_rfl h
  · unfold BlockSolveNormalCase3 at h3
    dsimp only at h3
    split_ifs at h3 with hg
    cases h3
    exact blockSolveUpdate_nonneg _ _ le_rfl hg.1 h
  · unfold BlockSolveNormalCase4 at h4
    dsimp only at h4
    split_ifs at h4 with hg
    cases h4
    exact blockSolveUpdate_nonneg _ _ le_rfl le_rfl h

theorem blockSolveNormalConstraint_nonneg (vc : VelocityConstraint)
    (h : vc.NonnegNormals) : (BlockSolveNormalConstraint vc).1.NonnegNormals := by
  unfold BlockSolveNormalConstraint
  rcases hc1 : BlockSolveNormalCase1 vc (ComputeBPrime vc) with _ | r1
  · rcases hc2 : BlockSolveNormalCase2 vc (ComputeBPrime vc) with _ | r2
    · rcases hc3 : BlockSolveNormalCase3 vc (ComputeBPrime vc) with _ | r3
      · rcases hc4 : BlockSolveNormalCase4 vc (ComputeBPrime vc) with _ | r4
        · simp only [hc1, hc2, hc3, hc4]
          exact h
        · simp only [hc1, hc2, hc3, hc4]
          exact blockSolveCases_nonneg vc _ r4 h (Or.inr (Or.inr (Or.inr hc4)))
      · simp only [hc1, hc2, hc3]
        exact blockSolveCases_nonneg vc _ r3 h (Or.inr (Or.inr (Or.inl hc3)))
    · simp only [hc1, hc2]
      exact blockSolveCases_nonneg vc _ r2 h (Or.inr (Or.inl hc2))
  · simp only [hc1]
    exact blockSolveCases_nonneg vc _ r1 h (Or.inl hc1)

theorem solveNormalConstraint_nonneg (vc : VelocityConstraint) (h : vc.NonnegNormals) :
    (SolveNormalConstraint vc).1.NonnegNormals := by
  unfold SolveNormalConstraint
  split_ifs with hc
  · exact seqSolveNormalConstraint_nonneg vc h
  · exact blockSolveNormalConstraint_nonneg vc h

/-- Claim C3. At every velocity-solver iteration the accumulated normal impulse
of every contact point stays non-negative: `SolveVelocityConstraint`
(tangent pass followed by the sequential or block normal pass) preserves
non-negativity of all accumulated normal impulses, and every accepted case of
the 2×2 block LCP solver yields non-negative impulses at every point. -/
theorem normal_impulse_nonneg_invariant (vc : VelocityConstraint)
    (h : ∀ p ∈ vc.points, 0 ≤ p.normalImpulse) :
    (∀ p ∈ (SolveVelocityConstraint vc).1.points, 0 ≤ p.normalImpulse) ∧
    (∀ (b_prime : Vec2) (r : VelocityConstraint × ℚ),
      (BlockSolveNormalCase1 vc b_prime = some r ∨
        BlockSolveNormalCase2 vc b_prime = some r ∨
        BlockSolveNormalCase3 vc b_prime = some r ∨
        BlockSolveNormalCase4 vc b_prime = some r) →
      ∀ p ∈ r.1.points, 0 ≤ p.normalImpulse) := by
  constructor
  · exact solveNormalConstraint_nonneg _ (solveTangentConstraint_nonneg vc h)
  · intro b_prime r hcase
    exact blockSolveCases_nonneg vc b_prime r h hcase

/-! ## C2: the friction bound on accumulated tangent impulses -/

theorem Vec2.add_mk (u v : Vec2) : u + v = ⟨u.x + v.x, u.y + v.y⟩ := rfl

theorem Vec2.sub_mk (u v : Vec2) : u - v = ⟨u.x - v.x, u.y - v.y⟩ := rfl

theorem Vec2.neg_mk (v : Vec2) : -v = ⟨-v.x, -v.y⟩ := rfl

theorem Vec2.smul_mk (s : ℚ) (v : Vec2) : s • v = ⟨s * v.x, s * v.y⟩ := rfl

theorem Vec2.zero_mk : (0 : Vec2) = ⟨0, 0⟩ := rfl

theorem Velocity.add_pair (a b : Velocity) :
    a + b = ⟨a.linear + b.linear, a.angular + b.angular⟩ := rfl

theorem Velocity.sub_pair (a b : Velocity) :
    a - b = ⟨a.linear - b.linear, a.angular - b.angular⟩ := rfl

theorem Velocity.neg_pair (a : Velocity) : -a = ⟨-a.linear, -a.angular⟩ := rfl

theorem Position.add_pieces (a b : Position) :
    a + b = ⟨a.linear + b.linear, a.angular + b.angular⟩ := rfl

theorem Position.neg_pieces (a : Position) : -a = ⟨-a.linear, -a.angular⟩ := rfl

theorem tangentStep_points (vc : VelocityConstraint) (i : ℕ) :
    (ApplyChangeAt vc i (SolveTangentConstraintAt vc i) true).points =
      vc.points.set i { vc.GetPointAt i with tangentImpulse := tangentClamped vc i } := by
  unfold ApplyChangeAt SolveTangentConstraintAt VelocityConstraint.SetTangentImpulseAtPoint
    VelocityConstraint.GetPointAt
  unfold tangentClamped tangentLambda tangentMaxImpulse VelocityConstraint.GetPointAt
  simp only [if_pos]
  congr 1
  simp only [VelocityConstraintPoint.mk.injEq, true_and, and_true]
  ring

theorem applyChangeAt_friction (vc : VelocityConstraint) (i : ℕ) (sol : ImpulseChange)
    (b : Bool) : (ApplyChangeAt vc i sol b).friction = vc.friction := by
  cases b <;> rfl

theorem applyChangeAt_getPointAt_ne (vc : VelocityConstraint) (i : ℕ) (sol : ImpulseChange)
    (j : ℕ) (hij : j ≠ i) :
    ((ApplyChangeAt vc i sol true).GetPointAt j) = vc.GetPointAt j := by
  unfold ApplyChangeAt VelocityConstraint.SetTangentImpulseAtPoint VelocityConstraint.GetPointAt
  simp only [if_pos, List.getD_eq_getElem?_getD, List.getElem?_set_ne (Ne.symm hij)]

theorem tangentClamped_bounded (vc : VelocityConstraint) (i : ℕ)
    (hfriction : 0 ≤ vc.friction) (hnn : 0 ≤ (vc.GetPointAt i).normalImpulse) :
    |tangentClamped vc i| ≤ tangentMaxImpulse vc i := by
  unfold tangentClamped tangentMaxImpulse
  exact abs_Clamp_le _ _ (mul_nonneg hfriction hnn)

/-- Claim C2, counterexample. On `frictionBoundCx`, after `SolveVelocityConstraint`
returns, the single point has `tangentImpulse = 1` but
`friction · normalImpulse = 1 · 0 = 0`: the claimed bound
`|tangentImpulse| ≤ friction · normalImpulse` fails at the velocity-solver
iteration exit, because the normal pass runs after the tangent pass and may
reduce the normal impulse the clamp used. -/
theorem friction_bound_counterexample :
    ¬ (∀ p ∈ (SolveVelocityConstraint frictionBoundCx).1.points,
        |p.tangentImpulse| ≤ (SolveVelocityConstraint frictionBoundCx).1.friction *
          p.normalImpulse) := by
  norm_num [SolveVelocityConstraint, SolveTangentConstraint, SolveNormalConstraint,
    SeqSolveNormalConstraint, SolveTangentConstraintAt, SolveNormalConstraintAt,
    ApplyChangeAt, VelocityConstraint.GetPointAt, VelocityConstraint.GetTangent,
    VelocityConstraint.SetTangentImpulseAtPoint, VelocityConstraint.SetNormalImpulseAtPoint,
    GetContactRelVelocity, GetFwdPerpendicular, crossZ, dot, cross, Clamp,
    frictionBoundCx, Vec2.add_mk, Vec2.sub_mk, Vec2.neg_mk, Vec2.smul_mk, Vec2.zero_mk,
    Velocity.add_pair, Velocity.sub_pair, Velocity.neg_pair, List.set]

/-- Claim C2, amended. The friction bound holds at the exit of the tangent
(friction) pass: after `SolveTangentConstraint`, every point satisfies
`|tangentImpulse| ≤ friction · normalImpulse`, where `normalImpulse` is the
accumulated normal impulse the pass clamped against (the pass leaves normal
impulses untouched).  The subsequent normal pass of the same
`SolveVelocityConstraint` call may reduce the normal impulses, so the bound is
not guaranteed at the return of `SolveVelocityConstraint` itself. -/
theorem friction_bound_after_tangent_pass (vc : VelocityConstraint)
    (hcount : vc.points.length = 1 ∨ vc.points.length = 2)
    (hfriction : 0 ≤ vc.friction)
    (h : ∀ p ∈ vc.points, 0 ≤ p.normalImpulse) :
    ∀ p ∈ (SolveTangentConstraint vc).1.points,
      |p.tangentImpulse| ≤ vc.friction * p.normalImpulse := by
  rcases hcount with h1 | h2
  · obtain ⟨p0, hp⟩ := List.length_eq_one.mp h1
    have hg0 : vc.GetPointAt 0 = p0 := by
      simp [VelocityConstraint.GetPointAt, hp]
    intro p hmem
    unfold SolveTangentConstraint at hmem
    rw [h1] at hmem
    dsimp only at hmem
    rw [tangentStep_points, hp] at hmem
    simp only [List.set] at hmem
    rw [List.mem_singleton] at hmem
    subst hmem
    simp only [hg0]
    have := tangentClamped_bounded vc 0 hfriction
      (by rw [hg0]; exact h p0 (by rw [hp]; simp))
    rwa [tangentMaxImpulse, hg0] at this
  · obtain ⟨p0, p1, hp⟩ := List.length_eq_two.mp h2
    have hg0 : vc.GetPointAt 0 = p0 := by
      simp [VelocityConstraint.GetPointAt, hp]
    have hg1 : vc.GetPointAt 1 = p1 := by
      simp [VelocityConstraint.GetPointAt, hp]
    intro p hmem
    unfold SolveTangentConstraint at hmem
    rw [h2] at hmem
    dsimp only at hmem
    rw [tangentStep_points, tangentStep_points, hp] at hmem
    simp only [List.set, List.mem_cons, List.not_mem_nil, or_false] at hmem
    have hfr1 : (ApplyChangeAt vc 1 (SolveTangentConstraintAt vc 1) true).friction
        = vc.friction := applyChangeAt_friction vc 1 _ true
    have hgp1 : ((ApplyChangeAt vc 1 (SolveTangentConstraintAt vc 1) true).GetPointAt 0)
        = vc.GetPointAt 0 := applyChangeAt_getPointAt_ne vc 1 _ 0 (by omega)
    rcases hmem with hmem | hmem
    · subst hmem
      simp only [hgp1, hg0]
      have := tangentClamped_bounded (ApplyChangeAt vc 1 (SolveTangentConstraintAt vc 1) true)
        0 (by rw [hfr1]; exact hfriction)
        (by rw [hgp1, hg0]; exact h p0 (by rw [hp]; simp))
      rwa [tangentMaxImpulse, hfr1, hgp1, hg0] at this
    · subst hmem
      simp only [hg1]
      have := tangentClamped_bounded vc 1 hfriction
        (by rw [hg1]; exact h p1 (by rw [hp]; simp))
      rwa [tangentMaxImpulse, hg1] at this

/-- Witness for the amended C2: on `frictionBoundCx`, the bound holds at the
tangent-pass exit. -/
theorem friction_bound_after_tangent_pass_witness :
    |((SolveTangentConstraint frictionBoundCx).1.GetPointAt 0).tangentImpulse| ≤
      frictionBoundCx.friction *
        ((SolveTangentConstraint frictionBoundCx).1.GetPointAt 0).normalImpulse := by
  refine friction_bound_after_tangent_pass frictionBoundCx (Or.inl ?_) ?_ ?_ _ ?_
  · norm_num [frictionBoundCx]
  · norm_num [frictionBoundCx]
  · intro p hp
    simp only [frictionBoundCx, List.mem_singleton] at hp
    subst hp
    norm_num
  · norm_num [SolveTangentConstraint, SolveTangentConstraintAt, ApplyChangeAt,
      VelocityConstraint.GetPointAt, VelocityConstraint.GetTangent,
      VelocityConstraint.SetTangentImpulseAtPoint,
      GetContactRelVelocity, GetFwdPerpendicular, crossZ, dot, cross, Clamp,
      frictionBoundCx, Vec2.add_mk, Vec2.sub_mk, Vec2.neg_mk, Vec2.smul_mk,
      Vec2.zero_mk, Velocity.add_pair, Velocity.sub_pair, Velocity.neg_pair, List.set]

/-- Witness for C3: on the concrete constraint `frictionBoundCx` (warm-start
normal impulse 1), the solved normal impulse is non-negative. -/
theorem normal_impulse_nonneg_witness :
    0 ≤ ((SolveVelocityConstraint frictionBoundCx).1.GetPointAt 0).normalImpulse := by
  refine (normal_impulse_nonneg_invariant frictionBoundCx ?_).1 _ ?_
  · intro p hp
    simp only [frictionBoundCx, List.mem_singleton] at hp
    subst hp
    norm_num
  · norm_num [SolveVelocityConstraint, SolveTangentConstraint, SolveNormalConstraint,
      SeqSolveNormalConstraint, SolveTangentConstraintAt, SolveNormalConstraintAt,
      ApplyChangeAt, VelocityConstraint.GetPointAt, VelocityConstraint.GetTangent,
      VelocityConstraint.SetTangentImpulseAtPoint, VelocityConstraint.SetNormalImpulseAtPoint,
      GetContactRelVelocity, GetFwdPerpendicular, crossZ, dot, cross, Clamp,
      frictionBoundCx, Vec2.add_mk, Vec2.sub_mk, Vec2.neg_mk, Vec2.smul_mk, Vec2.zero_mk,
      Velocity.add_pair, Velocity.sub_pair, Velocity.neg_pair, List.set]

/-! ## C7: atomicity of the block solver's give-up path -/

/-- Claim C7. When none of the four enumerated cases of the 2×2 block LCP normal
solver yields a valid solution (all four return the invalid sentinel),
`BlockSolveNormalConstraint` leaves the whole constraint — accumulated normal
impulses and both bodies' velocities included — unchanged and returns 0. -/
theorem block_solver_giveup_atomic (vc : VelocityConstraint)
    (h1 : BlockSolveNormalCase1 vc (ComputeBPrime vc) = none)
    (h2 : BlockSolveNormalCase2 vc (ComputeBPrime vc) = none)
    (h3 : BlockSolveNormalCase3 vc (ComputeBPrime vc) = none)
    (h4 : BlockSolveNormalCase4 vc (ComputeBPrime vc) = none) :
    BlockSolveNormalConstraint vc = (vc, 0) := by
  unfold BlockSolveNormalConstraint
  simp only [h1, h2, h3, h4]

/-- Witness for C7: on `blockGiveupCx` all four cases fail and the solver
returns the constraint unchanged with 0. -/
theorem block_solver_giveup_witness :
    BlockSolveNormalConstraint blockGiveupCx = (blockGiveupCx, 0) := by
  refine block_solver_giveup_atomic blockGiveupCx ?_ ?_ ?_ ?_ <;>
    norm_num [BlockSolveNormalCase1, BlockSolveNormalCase2, BlockSolveNormalCase3,
      BlockSolveNormalCase4, ComputeBPrime, TransformMat, GetNormalImpulses,
      VelocityConstraint.GetPointAt, GetContactRelVelocity, crossZ, dot,
      blockGiveupCx, Vec2.add_mk, Vec2.sub_mk, Vec2.neg_mk, Vec2.smul_mk, Vec2.zero_mk,
      Velocity.add_pair, Velocity.sub_pair, Velocity.neg_pair]

/-! ## C9: pinned bodies are not moved by the position solver -/

theorem Position.zero_linear_def : (0 : Position).linear = ⟨0, 0⟩ := rfl

theorem Position.zero_angular_def : (0 : Position).angular = 0 := rfl

theorem Position.zero_linear_x : (0 : Position).linear.x = 0 := rfl

theorem Position.zero_linear_y : (0 : Position).linear.y = 0 := rfl

theorem Position.add_zero_law (a : Position) : a + 0 = a := by
  show Position.mk _ _ = a
  rw [Position.mk.injEq]
  constructor
  · rw [Vec2.add_mk, Position.zero_linear_x, Position.zero_linear_y, add_zero, add_zero]
  · show a.angular + (0 : Position).angular = a.angular
    rw [Position.zero_angular_def, add_zero]

theorem positionSolverFn_pos_a_zero (mB iB tr : ℚ) (conf : ConstraintSolverConf)
    (psm : PositionSolverManifold) (pA pB : Vec2) (mA iA : ℚ)
    (hmA : mA = 0) (hiA : iA = 0) :
    (PositionSolverFn mA iA mB iB tr conf psm pA pB).pos_a = 0 := by
  subst hmA hiA
  unfold PositionSolverFn
  dsimp only
  rw [Position.neg_pieces]
  rw [Position.mk.injEq]
  constructor
  · simp [Vec2.smul_mk, Vec2.neg_mk, Position.zero_linear_def]
  · simp [Position.zero_angular_def]

theorem positionSolverFn_pos_b_zero (mA iA tr : ℚ) (conf : ConstraintSolverConf)
    (psm : PositionSolverManifold) (pA pB : Vec2) (mB iB : ℚ)
    (hmB : mB = 0) (hiB : iB = 0) :
    (PositionSolverFn mA iA mB iB tr conf psm pA pB).pos_b = 0 := by
  subst hmB hiB
  unfold PositionSolverFn
  dsimp only
  rw [Position.mk.injEq]
  constructor
  · simp [Vec2.smul_mk, Position.zero_linear_def]
  · simp [Position.zero_angular_def]

theorem pcSolverFn_pos_a_pinned (pc : PositionConstraint) (moveB : Bool)
    (conf : ConstraintSolverConf) (psm : PositionSolverManifold) (pA pB : Vec2) :
    (pcSolverFn pc false moveB conf psm pA pB).pos_a = 0 := by
  unfold pcSolverFn
  exact positionSolverFn_pos_a_zero _ _ _ _ _ _ _ _ _
    (by simp [moveFactor]) (by simp [moveFactor])

theorem pcSolverFn_pos_b_pinned (pc : PositionConstraint) (moveA : Bool)
    (conf : ConstraintSolverConf) (psm : PositionSolverManifold) (pA pB : Vec2) :
    (pcSolverFn pc moveA false conf psm pA pB).pos_b = 0 := by
  unfold pcSolverFn
  exact positionSolverFn_pos_b_zero _ _ _ _ _ _ _ _ _
    (by simp [moveFactor]) (by simp [moveFactor])

/-- The intended-semantics half of claim C9's evidence: under the guarded
zero-effective-mass semantics that spec §7 documents ("zero effective mass →
skip that point", realized by ℚ's `-C / 0 = 0` in `PositionSolverFn`), a body
whose move flag is `false` is left in place by `SolvePositionConstraint`,
whatever the manifold geometry, the other body's flag, and the configuration.
The in-src code misses that guard; see `pinned_body_nan_poisoning` for what
the unguarded float program does instead at `K = 0`. -/
theorem pinned_body_position_unchanged (pc : PositionConstraint)
    (getPSM : ℕ → Position → Position → PositionSolverManifold)
    (almostEqual : ℚ → ℚ → Bool) (conf : ConstraintSolverConf) :
    (∀ moveB : Bool, (SolvePositionConstraint pc getPSM almostEqual false moveB conf).pos_a
      = pc.bodyA.position) ∧
    (∀ moveA : Bool, (SolvePositionConstraint pc getPSM almostEqual moveA false conf).pos_b
      = pc.bodyB.position) := by
  constructor
  · intro moveB
    unfold SolvePositionConstraint
    rcases hn : pc.pointCount with _ | _ | _ | n
    · rfl
    · dsimp only
      rw [pcSolverFn_pos_a_pinned, Position.add_zero_law]
    · dsimp only
      split_ifs with hc1 hc2 hc3 <;> dsimp only <;>
        simp only [pcSolverFn_pos_a_pinned, Position.add_zero_law]
    · rfl
  · intro moveA
    unfold SolvePositionConstraint
    rcases hn : pc.pointCount with _ | _ | _ | n
    · rfl
    · dsimp only
      rw [pcSolverFn_pos_b_pinned, Position.add_zero_law]
    · dsimp only
      split_ifs with hc1 hc2 hc3 <;> dsimp only <;>
        simp only [pcSolverFn_pos_b_pinned, Position.add_zero_law]
    · rfl

/-- Claim C9 (code bug): the failing run.  On `pinnedPc` with both move flags
`false` — the TOI situation the claim covers, where `SolvePositionConstraints`
zeroes the flags of every body not in the earliest impact — the effective
mass `K` is 0 and the unguarded division `psm.m_normal * -C / K`
(ContactSolver.cpp line 535) is non-finite under float semantics; the poison
propagates through `0 · (±inf/NaN) = NaN` into both pinned bodies' position
deltas, so the returned positions are non-finite rather than the (finite)
input positions that the claim — and spec §7's zero-effective-mass skip
policy — require. -/
theorem pinned_body_nan_poisoning :
    (SolvePositionConstraintF1 pinnedPc pinnedPSM false false pinnedConf).1
      ≠ posToF pinnedPc.bodyA.position ∧
    (SolvePositionConstraintF1 pinnedPc pinnedPSM false false pinnedConf).1.linear.y
      = FloatQ.poison ∧
    (SolvePositionConstraintF1 pinnedPc pinnedPSM false false pinnedConf).2
      ≠ posToF pinnedPc.bodyB.position ∧
    (SolvePositionConstraintF1 pinnedPc pinnedPSM false false pinnedConf).2.linear.y
      = FloatQ.poison ∧
    (SolvePositionConstraint pinnedPc pinnedPSM (fun _ _ => false) false false
      pinnedConf).pos_a = pinnedPc.bodyA.position := by
  refine ⟨?_, ?_, ?_, ?_, ?_⟩
  <;> norm_num [SolvePositionConstraintF1, PositionSolverFnF, addPosF, posToF,
    FloatQ.divQ, FloatQ.scale, FloatQ.addF, FloatQ.subF, FloatQ.negF,
    SolvePositionConstraint, pcSolverFn, PositionSolverFn, moveFactor, Clamp,
    cross, Square, dot, pinnedPc, pinnedPSM, pinnedConf,
    Vec2.sub_mk, Vec2.add_mk, Vec2.neg_mk, Vec2.smul_mk,
    Position.add_pieces, Position.neg_pieces]
  <;> simp

/-! ## C8: resolution order for two-point position constraints -/

/-- Claim C8. For a two-point position constraint, `SolvePositionConstraint`
resolves the more penetrating point (smaller separation) first and recomputes
the other point's solver manifold — hence its separation — from the updated
positions before resolving it; the two points are resolved simultaneously from
the original positions exactly when `almost_equal` holds of their
separations. -/
theorem two_point_resolution_order (pc : PositionConstraint)
    (getPSM : ℕ → Position → Position → PositionSolverManifold)
    (almostEqual : ℚ → ℚ → Bool) (moveA moveB : Bool) (conf : ConstraintSolverConf)
    (h2 : pc.pointCount = 2) :
    (almostEqual (getPSM 0 pc.bodyA.position pc.bodyB.position).separation
        (getPSM 1 pc.bodyA.position pc.bodyB.position).separation = true →
      SolvePositionConstraint pc getPSM almostEqual moveA moveB conf =
        SimultaneousSolution pc getPSM moveA moveB conf) ∧
    (almostEqual (getPSM 0 pc.bodyA.position pc.bodyB.position).separation
        (getPSM 1 pc.bodyA.position pc.bodyB.position).separation = false →
      (getPSM 0 pc.bodyA.position pc.bodyB.position).separation <
        (getPSM 1 pc.bodyA.position pc.bodyB.position).separation →
      SolvePositionConstraint pc getPSM almostEqual moveA moveB conf =
        SequentialSolution pc getPSM moveA moveB conf 0 1) ∧
    (almostEqual (getPSM 0 pc.bodyA.position pc.bodyB.position).separation
        (getPSM 1 pc.bodyA.position pc.bodyB.position).separation = false →
      (getPSM 1 pc.bodyA.position pc.bodyB.position).separation <
        (getPSM 0 pc.bodyA.position pc.bodyB.position).separation →
      SolvePositionConstraint pc getPSM almostEqual moveA moveB conf =
        SequentialSolution pc getPSM moveA moveB conf 1 0) := by
  refine ⟨?_, ?_, ?_⟩
  · intro hae
    unfold SolvePositionConstraint SimultaneousSolution
    rw [h2]
    dsimp only
    rw [if_pos hae]
  · intro hae hlt
    unfold SolvePositionConstraint SequentialSolution
    rw [h2]
    dsimp only
    rw [if_neg (by simp [hae]), if_pos hlt]
  · intro hae hlt
    unfold SolvePositionConstraint SequentialSolution
    rw [h2]
    dsimp only
    rw [if_neg (by simp [hae]), if_neg (lt_asymm hlt), if_pos hlt]

/-- Witness for C8: with separations −1 (point 0) and 1 (point 1) and a
comparison that never deems them almost equal, the solver takes the
sequential point-0-first path. -/
theorem two_point_resolution_order_witness :
    SolvePositionConstraint posOrderPc posOrderPSM (fun _ _ => false) true true
        ⟨1/5, 1/200, 1/5⟩
      = SequentialSolution posOrderPc posOrderPSM true true ⟨1/5, 1/200, 1/5⟩ 0 1 := by
  refine (two_point_resolution_order posOrderPc posOrderPSM _ true true _ rfl).2.1 rfl ?_
  norm_num [posOrderPSM]

/-! ## C5: overlap at the GJK query forces the `overlapped, t = 0` exit -/

theorem toiLoop_overlapped_step {σ : Type} (distQ : σ → ℚ → ℚ × σ)
    (fcnOf : σ → ℚ → SeparationFunction) (target tolerance minTarget maxTarget tMax : ℚ)
    (fuel iter : ℕ) (t1 : ℚ) (cache : σ) (hd : (distQ cache t1).1 ≤ 0) :
    toiLoop distQ fcnOf target tolerance minTarget maxTarget tMax (fuel + 1) iter t1 cache
      = (⟨.overlapped, 0⟩, iter) := by
  unfold toiLoop
  dsimp only
  rw [if_pos hd]

/-- Claim C5. Whenever the GJK distance query inside the TOI loop reports a
squared witness-point distance at most 0, the loop exits immediately with
state `e_overlapped` and `t = 0` (regardless of the current lower time bound);
in particular `TimeOfImpact` whose initial query at `t = 0` reports
`distance² ≤ 0` returns `(overlapped, 0)`. -/
theorem gjk_overlap_exit {σ : Type} (distQ : σ → ℚ → ℚ × σ)
    (fcnOf : σ → ℚ → SeparationFunction) (target tolerance minTarget maxTarget tMax : ℚ)
    (fuel iter : ℕ) (t1 : ℚ) (cache : σ) (c0 : σ) (radiusA radiusB : ℚ)
    (hd : (distQ cache t1).1 ≤ 0) :
    (toiLoop distQ fcnOf target tolerance minTarget maxTarget tMax (fuel + 1) iter t1 cache
      = (⟨.overlapped, 0⟩, iter)) ∧
    ((distQ c0 0).1 ≤ 0 →
      TimeOfImpact distQ fcnOf c0 radiusA radiusB tMax = (⟨.overlapped, 0⟩, 0)) := by
  constructor
  · exact toiLoop_overlapped_step distQ fcnOf _ _ _ _ _ fuel iter t1 cache hd
  · intro hd0
    show toiLoop distQ fcnOf _ _ _ _ tMax (19 + 1) 0 0 c0 = (⟨.overlapped, 0⟩, 0)
    exact toiLoop_overlapped_step distQ fcnOf _ _ _ _ _ 19 0 0 c0 hd0

/-- Witness for C5: with the overlap-reporting query, `TimeOfImpact` returns
`(overlapped, 0)`. -/
theorem gjk_overlap_exit_witness :
    TimeOfImpact overlapDistQ stubFcn () 1 1 1 = (⟨.overlapped, 0⟩, 0) :=
  (gjk_overlap_exit overlapDistQ stubFcn 1 1 1 1 1 0 0 0 () () 1 1 le_rfl).2 le_rfl

/-! ## C4: the two failure situations of `TimeOfImpact` -/

theorem toiInner_finished_failed (fcn : SeparationFunction)
    (target tolerance minTarget maxTarget t1 : ℚ) :
    ∀ (fuel : ℕ) (t2 : ℚ) (out : TOIOutput),
      toiInner fcn target tolerance minTarget maxTarget t1 fuel t2 = .finished out →
      out.state = .failed → out.t = t1 ∧ ∃ ip, fcn.eval ip t1 < minTarget := by
  intro fuel
  induction fuel with
  | zero =>
    intro t2 out h
    simp [toiInner] at h
  | succ n ih =>
    intro t2 out h hst
    unfold toiInner at h
    dsimp only at h
    split_ifs at h with h1 h2 h3 h4
    · simp only [ToiInnerResult.finished.injEq] at h
      subst h
      simp at hst
    · simp only [ToiInnerResult.finished.injEq] at h
      subst h
      exact ⟨rfl, (fcn.findMin t2).1, h3⟩
    · simp only [ToiInnerResult.finished.injEq] at h
      subst h
      simp at hst
    · exact ih _ _ h hst

theorem toiLoop_failed_char {σ : Type} (distQ : σ → ℚ → ℚ × σ)
    (fcnOf : σ → ℚ → SeparationFunction) (target tolerance minTarget maxTarget tMax : ℚ) :
    ∀ (fuel iter : ℕ) (t1 : ℚ) (cache : σ) (out : TOIOutput) (iters : ℕ),
      toiLoop distQ fcnOf target tolerance minTarget maxTarget tMax fuel iter t1 cache
        = (out, iters) →
      out.state = .failed →
      (∃ (c : σ) (ip : IndexPair), (fcnOf c out.t).eval ip out.t < minTarget) ∨
        iters = MaxTOIIterations := by
  intro fuel
  induction fuel with
  | zero =>
    intro iter t1 cache out iters h hst
    unfold toiLoop at h
    injection h with ha hb
    subst ha
    simp at hst
  | succ n ih =>
    intro iter t1 cache out iters h hst
    unfold toiLoop at h
    dsimp only at h
    split_ifs at h with h1 h2 hit
    · injection h with ha hb
      subst ha
      simp at hst
    · injection h with ha hb
      subst ha
      simp at hst
    · rcases hin : toiInner (fcnOf (distQ cache t1).2 t1) target tolerance minTarget maxTarget
          t1 MaxPolygonVertices tMax with out' | t1'
      · rw [hin] at h
        dsimp only at h
        injection h with ha hb
        subst ha
        obtain ⟨hteq, ip, hlt⟩ :=
          toiInner_finished_failed _ _ _ _ _ _ _ _ _ hin hst
        left
        refine ⟨(distQ cache t1).2, ip, ?_⟩
        rw [hteq]
        exact hlt
      · rw [hin] at h
        dsimp only at h
        injection h with ha hb
        right
        rw [← hb]
        exact hit
    · rcases hin : toiInner (fcnOf (distQ cache t1).2 t1) target tolerance minTarget maxTarget
          t1 MaxPolygonVertices tMax with out' | t1'
      · rw [hin] at h
        dsimp only at h
        injection h with ha hb
        subst ha
        obtain ⟨hteq, ip, hlt⟩ :=
          toiInner_finished_failed _ _ _ _ _ _ _ _ _ hin hst
        left
        refine ⟨(distQ cache t1).2, ip, ?_⟩
        rw [hteq]
        exact hlt
      · rw [hin] at h
        dsimp only at h
        exact ih _ _ _ _ _ h hst

/-- Claim C4. `TimeOfImpact` returns `e_failed` only in the two enumerated
situations, and in both the returned `t` is the lower time bound `t1` at that
moment: either some separation function (built from a cache at the returned
time) evaluates below `minTarget` at the witness index pair and the returned
time — the `s1 < minTarget` check — or the outer loop consumed
`MaxTOIIterations` iterations.  Conversely, the inner loop's `s1 < minTarget`
check produces exactly `finished (failed, t1)`. -/
theorem toi_failed_characterization {σ : Type} (distQ : σ → ℚ → ℚ × σ)
    (fcnOf : σ → ℚ → SeparationFunction) (c0 : σ) (radiusA radiusB tMax : ℚ)
    (out : TOIOutput) (iters : ℕ)
    (heq : TimeOfImpact distQ fcnOf c0 radiusA radiusB tMax = (out, iters))
    (hfail : out.state = .failed) :
    ((∃ (c : σ) (ip : IndexPair),
        (fcnOf c out.t).eval ip out.t < toiMinTarget radiusA radiusB) ∨
      iters = MaxTOIIterations) ∧
    (∀ (fcn : SeparationFunction) (target' tolerance' minT maxT t1 t2 : ℚ) (fuel : ℕ),
      ¬(fcn.findMin t2).2 > maxT → ¬(fcn.findMin t2).2 > minT →
      fcn.eval (fcn.findMin t2).1 t1 < minT →
      toiInner fcn target' tolerance' minT maxT t1 (fuel + 1) t2
        = .finished ⟨.failed, t1⟩) := by
  constructor
  · exact toiLoop_failed_char distQ fcnOf _ _ _ _ tMax MaxTOIIterations 0 0 c0 out iters
      heq hfail
  · intro fcn target' tolerance' minT maxT t1 t2 fuel hs2max hs2min hs1
    unfold toiInner
    dsimp only
    rw [if_neg hs2max, if_neg hs2min, if_pos hs1]

/-- Witness for C4: on the failing configuration the characterization's first
disjunct holds (a separation evaluation below `minTarget` at the returned
time). -/
theorem toi_failed_characterization_witness :
    (∃ (c : Unit) (ip : IndexPair),
      (toiFailFcn c (0 : ℚ)).eval ip (0 : ℚ) < toiMinTarget (1/40) (1/40)) ∨
    (1 = MaxTOIIterations) := by
  refine (toi_failed_characterization toiFailDistQ toiFailFcn () (1/40) (1/40) 1
    ⟨.failed, 0⟩ 1 ?_ rfl).1
  norm_num [TimeOfImpact, toiLoop, toiInner, MaxPolygonVertices, MaxTOIIterations, Square,
    toiTargetDepth, toiToleranceDepth, LinearSlop, toiFailDistQ, toiFailFcn]

/-! ## C6: the hybrid secant/bisection 1-D root finder -/

theorem toiRoot_count_le (evalF : ℚ → ℚ) (target tolerance : ℚ) :
    ∀ (fuel count : ℕ) (a1 a2 s1 s2 t2 : ℚ),
      (toiRoot evalF target tolerance fuel count a1 a2 s1 s2 t2).2 ≤ count + fuel := by
  intro fuel
  induction fuel with
  | zero =>
    intro count a1 a2 s1 s2 t2
    simp [toiRoot]
  | succ n ih =>
    intro count a1 a2 s1 s2 t2
    unfold toiRoot
    dsimp only
    split_ifs with hb hgt hlt hlt2
    · show count + 1 ≤ count + (n + 1)
      omega
    · exact le_trans (ih (count + 1) _ _ _ _ _) (by omega)
    · show count + 1 ≤ count + (n + 1)
      omega
    · exact le_trans (ih (count + 1) _ _ _ _ _) (by omega)
    · show count + 1 ≤ count + (n + 1)
      omega

/-- Claim C6. The 1-D root finder of `TimeOfImpact` works on
`f(t) = separation(indexPair, t) − target`: its candidate at counter `count`
is the secant step on odd counters and the bisection midpoint on even ones
(counters starting at 0), it performs at most `MaxTOIRootIterCount` (50)
iterations, and the inner loop invokes it on the bracket `[t1, t2]` (with
`a1 = t1`, `a2 = t2`, evaluation through the separation function at the
recorded witness index pair, counter starting at 0 and fuel 50). -/
theorem hybrid_root_finder (evalF : ℚ → ℚ)
    (target tolerance a1 a2 s1 s2 t1 t2 minT maxT : ℚ) (count fuel : ℕ)
    (fcn : SeparationFunction)
    (hs2max : ¬(fcn.findMin t2).2 > maxT) (hs2min : ¬(fcn.findMin t2).2 > minT)
    (hs1min : ¬fcn.eval (fcn.findMin t2).1 t1 < minT)
    (hs1max : ¬fcn.eval (fcn.findMin t2).1 t1 ≤ maxT) :
    (count % 2 = 1 → toiRootStep target count a1 a2 s1 s2 = secantStep target s1 s2 a1 a2) ∧
    (count % 2 = 0 → toiRootStep target count a1 a2 s1 s2 = bisectionStep a1 a2) ∧
    ((toiRoot evalF target tolerance MaxTOIRootIterCount 0 a1 a2 s1 s2 t2).2
      ≤ MaxTOIRootIterCount) ∧
    (toiInner fcn target tolerance minT maxT t1 (fuel + 1) t2 =
      toiInner fcn target tolerance minT maxT t1 fuel
        (toiRoot (fcn.eval (fcn.findMin t2).1) target tolerance MaxTOIRootIterCount 0
          t1 t2 (fcn.eval (fcn.findMin t2).1 t1) (fcn.findMin t2).2 t2).1) := by
  refine ⟨?_, ?_, ?_, ?_⟩
  · intro hodd
    simp [toiRootStep, hodd]
  · intro heven
    simp [toiRootStep, heven]
  · have h := toiRoot_count_le evalF target tolerance MaxTOIRootIterCount 0 a1 a2 s1 s2 t2
    simpa using h
  · unfold toiInner
    dsimp only
    rw [if_neg hs2max, if_neg hs2min, if_neg hs1min, if_neg hs1max]
    rcases fuel with _ | m
    · rfl
    · rfl

/-- Witness for C6: at counter 0 the root finder bisects, and the iteration
count of a full invocation stays within `MaxTOIRootIterCount`. -/
theorem hybrid_root_finder_witness :
    toiRootStep 1 0 0 1 2 0 = bisectionStep 0 1 ∧
    (toiRoot (fun _ => 2) 1 (1/4) MaxTOIRootIterCount 0 0 1 2 0 1).2
      ≤ MaxTOIRootIterCount := by
  have h := hybrid_root_finder (fun _ => 2) 1 (1/4) 0 1 2 0 0 1 (1/2) 1 0 5 rootWitFcn
    (by norm_num [rootWitFcn]) (by norm_num [rootWitFcn])
    (by norm_num [rootWitFcn]) (by norm_num [rootWitFcn])
  exact ⟨h.2.1 rfl, h.2.2.1⟩

/-! ## C1: what `e_touching` guarantees about the witness separation -/

theorem toiInner_finished_touching (fcn : SeparationFunction)
    (target tolerance minTarget maxTarget t1 : ℚ) :
    ∀ (fuel : ℕ) (t2 : ℚ) (out : TOIOutput),
      toiInner fcn target tolerance minTarget maxTarget t1 fuel t2 = .finished out →
      out.state = .touching →
      out.t = t1 ∧ ∃ ip, minTarget ≤ fcn.eval ip t1 ∧ fcn.eval ip t1 ≤ maxTarget := by
  intro fuel
  induction fuel with
  | zero =>
    intro t2 out h
    simp [toiInner] at h
  | succ n ih =>
    intro t2 out h hst
    unfold toiInner at h
    dsimp only at h
    split_ifs at h with h1 h2 h3 h4
    · simp only [ToiInnerResult.finished.injEq] at h
      subst h
      simp at hst
    · simp only [ToiInnerResult.finished.injEq] at h
      subst h
      simp at hst
    · simp only [ToiInnerResult.finished.injEq] at h
      subst h
      exact ⟨rfl, (fcn.findMin t2).1, not_lt.mp h3, h4⟩
    · exact ih _ _ h hst

theorem toiLoop_touching_char {σ : Type} (distQ : σ → ℚ → ℚ × σ)
    (fcnOf : σ → ℚ → SeparationFunction) (target tolerance minTarget maxTarget tMax : ℚ) :
    ∀ (fuel iter : ℕ) (t1 : ℚ) (cache : σ) (out : TOIOutput) (iters : ℕ),
      toiLoop distQ fcnOf target tolerance minTarget maxTarget tMax fuel iter t1 cache
        = (out, iters) →
      out.state = .touching →
      (∃ c : σ, 0 < (distQ c out.t).1 ∧ (distQ c out.t).1 < Square maxTarget) ∨
      (∃ (c : σ) (ip : IndexPair), minTarget ≤ (fcnOf c out.t).eval ip out.t ∧
        (fcnOf c out.t).eval ip out.t ≤ maxTarget) := by
  intro fuel
  induction fuel with
  | zero =>
    intro iter t1 cache out iters h hst
    unfold toiLoop at h
    injection h with ha hb
    subst ha
    simp at hst
  | succ n ih =>
    intro iter t1 cache out iters h hst
    unfold toiLoop at h
    dsimp only at h
    split_ifs at h with h1 h2 hit
    · injection h with ha hb
      subst ha
      simp at hst
    · injection h with ha hb
      subst ha
      left
      exact ⟨cache, not_le.mp h1, h2⟩
    · rcases hin : toiInner (fcnOf (distQ cache t1).2 t1) target tolerance minTarget maxTarget
          t1 MaxPolygonVertices tMax with out' | t1'
      · rw [hin] at h
        dsimp only at h
        injection h with ha hb
        subst ha
        obtain ⟨hteq, ip, hge, hle⟩ :=
          toiInner_finished_touching _ _ _ _ _ _ _ _ _ hin hst
        right
        refine ⟨(distQ cache t1).2, ip, ?_, ?_⟩ <;> rw [hteq]
        · exact hge
        · exact hle
      · rw [hin] at h
        dsimp only at h
        injection h with ha hb
        subst ha
        simp at hst
    · rcases hin : toiInner (fcnOf (distQ cache t1).2 t1) target tolerance minTarget maxTarget
          t1 MaxPolygonVertices tMax with out' | t1'
      · rw [hin] at h
        dsimp only at h
        injection h with ha hb
        subst ha
        obtain ⟨hteq, ip, hge, hle⟩ :=
          toiInner_finished_touching _ _ _ _ _ _ _ _ _ hin hst
        right
        refine ⟨(distQ cache t1).2, ip, ?_, ?_⟩ <;> rw [hteq]
        · exact hge
        · exact hle
      · rw [hin] at h
        dsimp only at h
        exact ih _ _ _ _ _ h hst

/-- Claim C1, amended. When `TimeOfImpact` returns `e_touching`, at the returned
time either the GJK query reports a positive squared witness distance below
`maxTarget²` — which admits a separation strictly below `minTarget` — or the
separation-function evaluation at the recorded witness index pair lies within
`[minTarget, maxTarget]`.  Membership of the witness separation in the full
band `[minTarget, maxTarget]` is not guaranteed (see the counterexample). -/
theorem toi_touching_separation_band {σ : Type} (distQ : σ → ℚ → ℚ × σ)
    (fcnOf : σ → ℚ → SeparationFunction) (c0 : σ) (radiusA radiusB tMax : ℚ)
    (out : TOIOutput) (iters : ℕ)
    (heq : TimeOfImpact distQ fcnOf c0 radiusA radiusB tMax = (out, iters))
    (ht : out.state = .touching) :
    (∃ c : σ, 0 < (distQ c out.t).1 ∧
      (distQ c out.t).1 < Square (toiMaxTarget radiusA radiusB)) ∨
    (∃ (c : σ) (ip : IndexPair),
      toiMinTarget radiusA radiusB ≤ (fcnOf c out.t).eval ip out.t ∧
      (fcnOf c out.t).eval ip out.t ≤ toiMaxTarget radiusA radiusB) :=
  toiLoop_touching_char distQ fcnOf _ _ _ _ tMax MaxTOIIterations 0 0 c0 out iters heq ht

/-- Claim C1, counterexample. Two stationary point proxies of radius `1/40`
each (total radius `10·LinearSlop`, so `minTarget = 27/800`) whose centers are
only `1/200` apart: `TimeOfImpact` returns `e_touching` at `t = 0`, yet the
witness separation `1/200` is strictly below `minTarget` (its square is below
`minTarget²` and `minTarget > 0`), refuting "returns `touching` exactly when
the witness separation lies within `[minTarget, maxTarget]`". -/
theorem toi_touching_band_counterexample :
    (TimeOfImpact overlapBandDistQ overlapBandFcn () (1/40) (1/40) 1)
      = (⟨.touching, 0⟩, 0) ∧
    (overlapBandDistQ () 0).1 < Square (toiMinTarget (1/40) (1/40)) ∧
    0 < toiMinTarget (1/40) (1/40) := by
  refine ⟨?_, ?_, ?_⟩ <;>
    norm_num [TimeOfImpact, toiLoop, toiInner, MaxPolygonVertices, MaxTOIIterations, Square,
      toiTargetDepth, toiToleranceDepth, toiMinTarget, LinearSlop,
      overlapBandDistQ, overlapBandFcn]

/-- Witness for the amended C1: on the stationary-point-proxies run the first
disjunct (positive squared distance below `maxTarget²`) holds. -/
theorem toi_touching_band_witness :
    (∃ c : Unit, 0 < (overlapBandDistQ c (0 : ℚ)).1 ∧
      (overlapBandDistQ c (0 : ℚ)).1 < Square (toiMaxTarget (1/40) (1/40))) ∨
    (∃ (c : Unit) (ip : IndexPair),
      toiMinTarget (1/40) (1/40) ≤ (overlapBandFcn c (0 : ℚ)).eval ip (0 : ℚ) ∧
      (overlapBandFcn c (0 : ℚ)).eval ip (0 : ℚ) ≤ toiMaxTarget (1/40) (1/40)) := by
  exact toi_touching_separation_band overlapBandDistQ overlapBandFcn () (1/40) (1/40) 1
    ⟨.touching, 0⟩ 0
    (by norm_num [TimeOfImpact, toiLoop, toiInner, MaxPolygonVertices, MaxTOIIterations,
      Square, toiTargetDepth, toiToleranceDepth, LinearSlop,
      overlapBandDistQ, overlapBandFcn]) rfl

